import Mathlib

/-!
# Verification of the dsp_db SQLite schema initializer (src/dsp_db/init_db.py)

Shallow embedding of the schema-reconciliation script.  A database file is
modelled as an association list of named tables plus a list of indexes; each
table carries its column declarations (with type and constraint flags), its
rows (association lists from column name to value) and the next AUTOINCREMENT
id.  Each SQL statement issued by the script becomes an explicit state
transformer; statements whose `sqlite3.Error` would be caught by a
`try/except` in the script are wrapped so that the error leaves the state at
the point of failure, while uncaught errors abort the run with the state
reached so far.  Catalog-inspection faults (an `sqlite3.Error` raised by the
underlying query) are modelled by explicit fault flags.
-/

namespace InitDb

/-- An SQL value as stored in a cell (NULL, INTEGER, TEXT, or timestamp). -/
inductive Value where
  | null
  | int (n : Int)
  | text (s : String)
  | ts (t : Nat)
  deriving DecidableEq, Repr

/-- A row: association list from column name to value; a missing binding
reads as NULL. -/
abbrev Row := List (String × Value)

/-- Read a cell of a row; absent columns read as NULL. -/
def Row.val (r : Row) (c : String) : Value :=
  (List.lookup c r).getD Value.null

/-- Write a cell of a row (replace the first binding, or append one). -/
def setVal : Row → String → Value → Row
  | [], c, v => [(c, v)]
  | (n, w) :: rest, c, v =>
      if n == c then (c, v) :: rest else (n, w) :: setVal rest c v

/-- A column declaration: name, SQL type, and the constraint flags used in
the script's CREATE TABLE statements. -/
structure Column where
  name : String
  ctype : String
  notNull : Bool
  uniq : Bool
  pkAutoinc : Bool
  defaultNow : Bool
  deriving DecidableEq, Repr

/-- A table: declared columns, stored rows, and the next AUTOINCREMENT id. -/
structure Table where
  columns : List Column
  rows : List Row
  nextId : Nat
  deriving DecidableEq, Repr

/-- An index in the catalog: its name, the indexed table and column. -/
structure Index where
  name : String
  table : String
  column : String
  deriving DecidableEq, Repr

/-- The database file state: named tables (association list, first binding
wins) and indexes. -/
structure DbState where
  tables : List (String × Table)
  rowsIndexes : List Index
  deriving DecidableEq, Repr

def DbState.indexes (db : DbState) : List Index := db.rowsIndexes

/-- The table bound to a name, if any. -/
def DbState.lookupTable (db : DbState) (n : String) : Option Table :=
  List.lookup n db.tables

/-- Whether a table of this name exists (content of `sqlite_master`). -/
def DbState.hasTable (db : DbState) (n : String) : Bool :=
  (db.lookupTable n).isSome

/-- `PRAGMA table_info(t)`: the declared columns; empty for a missing table. -/
def DbState.tableCols (db : DbState) (n : String) : List Column :=
  ((db.lookupTable n).map Table.columns).getD []

/-- Whether a table value declares a column of this name. -/
def Table.hasCol (t : Table) (c : String) : Bool :=
  t.columns.any (fun col => col.name == c)

/-- Whether table `t` declares column `c` in the database. -/
def DbState.colInTable (db : DbState) (t c : String) : Bool :=
  (db.tableCols t).any (fun col => col.name == c)

/-- Whether an index of this name exists (content of `sqlite_master`). -/
def DbState.hasIndex (db : DbState) (n : String) : Bool :=
  db.indexes.any (fun i => i.name == n)

/-- Replace the first table bound to `n` in an association list. -/
def setTables : List (String × Table) → String → Table → List (String × Table)
  | [], _, _ => []
  | (m, u) :: rest, n, t =>
      if m == n then (n, t) :: rest else (m, u) :: setTables rest n t

/-- Rebind table `n` (used by statements that modify one table in place). -/
def DbState.setTable (db : DbState) (n : String) (t : Table) : DbState :=
  { db with tables := setTables db.tables n t }

/-! ## Catalog inspectors: `_table_exists`, `_column_exists`, `_index_exists`

`fault` models an `sqlite3.Error` raised by the underlying catalog query.
`_table_exists` and `_index_exists` have no `try/except`, so the error
propagates to the caller; `_column_exists` catches it, prints a warning and
returns `False`. -/

/-- `_table_exists` (init_db.py:37): query `sqlite_master`; a query fault
propagates (no handler in the source). -/
def tableExists (db : DbState) (n : String) (fault : Bool) : Except Unit Bool :=
  if fault then .error () else .ok (db.hasTable n)

/-- `_column_exists` (init_db.py:46): `PRAGMA table_info`, catching any
`sqlite3.Error` and returning `False`; a missing table yields no rows and
hence `False`. -/
def columnExists (db : DbState) (t c : String) (fault : Bool) : Bool :=
  if fault then false else db.colInTable t c

/-- `_index_exists` (init_db.py:57): query `sqlite_master`; a query fault
propagates (no handler in the source). -/
def indexExists (db : DbState) (n : String) (fault : Bool) : Except Unit Bool :=
  if fault then .error () else .ok (db.hasIndex n)

/-! ## Individual SQL statements -/

/-- `CREATE TABLE IF NOT EXISTS n (cols)`: no-op when the name is taken. -/
def createTableIfNotExists (db : DbState) (n : String) (cols : List Column) : DbState :=
  if db.hasTable n then db
  else { db with tables := db.tables ++ [(n, ⟨cols, [], 1⟩)] }

/-- `CREATE INDEX IF NOT EXISTS idx ON tbl(col)`: no-op when the index name
is taken; errors when the table or column is missing. -/
def createIndexIfNotExists (db : DbState) (idx tbl col : String) : Except Unit DbState :=
  if db.hasIndex idx then .ok db
  else if db.hasTable tbl && db.colInTable tbl col then
    .ok { db with rowsIndexes := db.indexes ++ [⟨idx, tbl, col⟩] }
  else .error ()

/-- `ALTER TABLE tbl ADD COLUMN c`: errors when the table is missing or the
column already exists; otherwise appends the column (old rows read NULL). -/
def alterAddColumn (db : DbState) (tbl : String) (c : Column) : Except Unit DbState :=
  match db.lookupTable tbl with
  | none => .error ()
  | some t =>
      if t.hasCol c.name then .error ()
      else .ok (db.setTable tbl { t with columns := t.columns ++ [c] })

/-- `COALESCE(v, '')` as used by the backfill UPDATE. -/
def coalesceEmpty (v : Value) : Value :=
  match v with
  | .null => .text ""
  | w => w

/-- The per-row effect of
`UPDATE users SET password_hash = COALESCE(password_hash, '')`. -/
def backfillRow (r : Row) : Row :=
  setVal r "password_hash" (coalesceEmpty (r.val "password_hash"))

/-- The backfill UPDATE over the whole `users` table; errors when the table
or the column is missing. -/
def updateBackfillPH (db : DbState) : Except Unit DbState :=
  match db.lookupTable "users" with
  | none => .error ()
  | some t =>
      if t.hasCol "password_hash" then
        .ok (db.setTable "users" { t with rows := t.rows.map backfillRow })
      else .error ()

/-- The row built by `INSERT OR REPLACE INTO app_info (key, value)`:
supplied values for `key`/`value`, the AUTOINCREMENT id for the integer
primary key, the insert-time default for `created_at`-style columns, and
NULL elsewhere. -/
def mkSeedRow (cols : List Column) (k v : String) (now nid : Nat) : Row :=
  cols.map (fun c =>
    (c.name,
      if c.name == "key" then Value.text k
      else if c.name == "value" then Value.text v
      else if c.pkAutoinc then Value.int nid
      else if c.defaultNow then Value.ts now
      else Value.null))

/-- OR REPLACE conflict test: an existing row conflicts with the new row
when some UNIQUE (or primary key) column holds the same non-NULL value. -/
def conflicts (cols : List Column) (newRow r : Row) : Bool :=
  cols.any (fun c =>
    (c.uniq || c.pkAutoinc) && newRow.val c.name != Value.null
      && r.val c.name == newRow.val c.name)

/-- `INSERT OR REPLACE INTO app_info (key, value) VALUES (k, v)`: errors when
the table or one of the named columns is missing, or a NOT NULL column would
receive NULL; otherwise deletes conflicting rows and appends the new one. -/
def seedAppInfo (db : DbState) (k v : String) (now : Nat) : Except Unit DbState :=
  match db.lookupTable "app_info" with
  | none => .error ()
  | some t =>
      if t.hasCol "key" && t.hasCol "value" then
        let newRow := mkSeedRow t.columns k v now t.nextId
        if t.columns.any (fun c => c.notNull && newRow.val c.name == Value.null) then
          .error ()
        else
          .ok (db.setTable "app_info"
            { t with
              rows := t.rows.filter (fun r => !conflicts t.columns newRow r) ++ [newRow]
              nextId := t.nextId + 1 })
      else .error ()

/-! ## Target schema constants (the CREATE TABLE statements of the script) -/

/-- Columns of `app_info` as created by the script. -/
def appInfoCols : List Column :=
  [⟨"id", "INTEGER", false, false, true, false⟩,
   ⟨"key", "TEXT", true, true, false, false⟩,
   ⟨"value", "TEXT", false, false, false, false⟩,
   ⟨"created_at", "TIMESTAMP", false, false, false, true⟩]

/-- Columns of `users` as created by the script on the fresh path. -/
def usersCols : List Column :=
  [⟨"id", "INTEGER", false, false, true, false⟩,
   ⟨"username", "TEXT", true, true, false, false⟩,
   ⟨"email", "TEXT", true, true, false, false⟩,
   ⟨"password_hash", "TEXT", true, false, false, false⟩,
   ⟨"last_login", "TIMESTAMP", false, false, false, false⟩,
   ⟨"created_at", "TIMESTAMP", false, false, false, true⟩]

/-- `password_hash` as added by `ALTER TABLE` (nullable at the storage level). -/
def phColAdded : Column := ⟨"password_hash", "TEXT", false, false, false, false⟩

/-- `last_login` as added by `ALTER TABLE`. -/
def llColAdded : Column := ⟨"last_login", "TIMESTAMP", false, false, false, false⟩

/-! ## Composite routines -/

/-- Outcome of a code region that may raise an uncaught `sqlite3.Error`:
either the final state, or the state reached when the error was raised. -/
inductive RunResult where
  | ok (db : DbState)
  | err (db : DbState)
  deriving DecidableEq, Repr

/-- The state carried by a `RunResult`, whichever way the region ended. -/
def resultDb : RunResult → DbState
  | .ok db => db
  | .err db => db

/-- The four `INSERT OR REPLACE` seed statements, run in order with no
handler: the first failure aborts with the state reached so far. -/
def seedAllUnguarded (db : DbState) (now : Nat) : RunResult :=
  match seedAppInfo db "project_name" "dsp_db" now with
  | .error _ => .err db
  | .ok db1 =>
    match seedAppInfo db1 "version" "0.1.0" now with
    | .error _ => .err db1
    | .ok db2 =>
      match seedAppInfo db2 "author" "John Doe" now with
      | .error _ => .err db2
      | .ok db3 =>
        match seedAppInfo db3 "description" "" now with
        | .error _ => .err db3
        | .ok db4 => .ok db4

/-- The same four seed statements inside `_migrate_existing_db`'s
`try/except`: a failure keeps the state reached and continues the run. -/
def seedBlockGuarded (db : DbState) (now : Nat) : DbState :=
  resultDb (seedAllUnguarded db now)

/-- `_create_base_schema` (init_db.py:66): create both tables and both
indexes, then seed `app_info`; none of it is inside a `try/except`. -/
def createBaseSchema (db : DbState) (now : Nat) : RunResult :=
  let db1 := createTableIfNotExists db "app_info" appInfoCols
  let db2 := createTableIfNotExists db1 "users" usersCols
  match createIndexIfNotExists db2 "idx_users_username" "users" "username" with
  | .error _ => .err db2
  | .ok db3 =>
    match createIndexIfNotExists db3 "idx_users_email" "users" "email" with
    | .error _ => .err db3
    | .ok db4 => seedAllUnguarded db4 now

/-- The guarded `ALTER TABLE users ADD COLUMN password_hash` followed by the
backfill UPDATE, inside one `try/except` (init_db.py:130-138): a failure
keeps the state reached at that point. -/
def tryAddPasswordHash (db : DbState) : DbState :=
  match alterAddColumn db "users" phColAdded with
  | .error _ => db
  | .ok db1 =>
    match updateBackfillPH db1 with
    | .error _ => db1
    | .ok db2 => db2

/-- The guarded `ALTER TABLE users ADD COLUMN last_login` (init_db.py:142-146). -/
def tryAddLastLogin (db : DbState) : DbState :=
  match alterAddColumn db "users" llColAdded with
  | .error _ => db
  | .ok db1 => db1

/-- A guarded `CREATE INDEX IF NOT EXISTS` (init_db.py:150-163): a failure
is logged and the state kept. -/
def tryCreateIndex (db : DbState) (idx tbl col : String) : DbState :=
  match createIndexIfNotExists db idx tbl col with
  | .error _ => db
  | .ok db1 => db1

/-- Fault flags for the three catalog inspectors: whether the underlying
catalog query raises an `sqlite3.Error` during this run. -/
structure Faults where
  tableFault : Bool
  columnFault : Bool
  indexFault : Bool
  deriving DecidableEq, Repr

/-- No injected catalog faults: the normal run. -/
def noFaults : Faults := ⟨false, false, false⟩

/-- Line 129-138: `if not _column_exists(users, password_hash): try: ALTER;
UPDATE except: warn`. -/
def phStep (db : DbState) (cf : Bool) : DbState :=
  if columnExists db "users" "password_hash" cf then db else tryAddPasswordHash db

/-- Line 141-146: `if not _column_exists(users, last_login): try: ALTER
except: warn`. -/
def llStep (db : DbState) (cf : Bool) : DbState :=
  if columnExists db "users" "last_login" cf then db else tryAddLastLogin db

/-- Lines 149-163: `if not _index_exists(idx): try: CREATE INDEX IF NOT
EXISTS except: warn`; `ex` is the inspection result already obtained. -/
def idxStep (db : DbState) (idx tbl col : String) (ex : Bool) : DbState :=
  if ex then db else tryCreateIndex db idx tbl col

/-- Lines 166-179: `if not _table_exists(app_info): try: CREATE TABLE IF NOT
EXISTS except: warn`; `ex` is the inspection result already obtained. -/
def appInfoStep (db : DbState) (ex : Bool) : DbState :=
  if ex then db else createTableIfNotExists db "app_info" appInfoCols

/-- `_migrate_existing_db` (init_db.py:121): fresh path when `users` is
missing, otherwise the incremental path; uncaught inspector faults abort. -/
def migrateExistingDb (db : DbState) (now : Nat) (fl : Faults) : RunResult :=
  match tableExists db "users" fl.tableFault with
  | .error _ => .err db
  | .ok usersEx =>
    if !usersEx then createBaseSchema db now
    else
      let db1 := phStep db fl.columnFault
      let db2 := llStep db1 fl.columnFault
      match indexExists db2 "idx_users_username" fl.indexFault with
      | .error _ => .err db2
      | .ok idxU =>
        let db3 := idxStep db2 "idx_users_username" "users" "username" idxU
        match indexExists db3 "idx_users_email" fl.indexFault with
        | .error _ => .err db3
        | .ok idxE =>
          let db4 := idxStep db3 "idx_users_email" "users" "email" idxE
          match tableExists db4 "app_info" fl.tableFault with
          | .error _ => .err db4
          | .ok aiEx =>
            let db5 := appInfoStep db4 aiEx
            .ok (seedBlockGuarded db5 now)

/-- How the process ends: `main` returns an exit code, or an uncaught
exception escapes `main` (the interpreter then prints a traceback). -/
inductive Outcome where
  | exited (code : Nat)
  | crashed
  deriving DecidableEq, Repr

/-- The empty database a fresh `sqlite3.connect` creates. -/
def emptyDb : DbState := ⟨[], []⟩

/-- `main` (init_db.py:231): `file` is the database file's content before the
run (`none` when the file does not exist); `connFails` models a failing
`sqlite3.connect`.  Returns the outcome and the file content afterwards. -/
def main (file : Option DbState) (connFails : Bool) (fl : Faults) (now : Nat) :
    Outcome × Option DbState :=
  if connFails then (.exited 1, file)
  else
    match file with
    | some db =>
        match migrateExistingDb db now fl with
        | .ok db' => (.exited 0, some db')
        | .err db' => (.crashed, some db')
    | none =>
        match createBaseSchema emptyDb now with
        | .ok db' => (.exited 0, some db')
        | .err db' => (.crashed, some db')

/-- The schema of a state: table names with their column declarations, and
the indexes — the part of the state the idempotence claim compares. -/
def schemaOf (db : DbState) : List (String × List Column) × List Index :=
  (db.tables.map (fun p => (p.1, p.2.columns)), db.indexes)

/-- One normal run of the setup (no connection failure, no catalog faults),
returning the file content afterwards. -/
def runFile (file : Option DbState) (now : Nat) : Option DbState :=
  (main file false noFaults now).2

/-- After any one run the state satisfies this: `users` and `app_info` are
present, `users` has both auth columns, and each lookup index either exists
or its target column is absent (so every later creation attempt fails the
same way).  Such a state is a structural fixpoint of the migration. -/
def Stable (db : DbState) : Prop :=
  db.hasTable "users" = true ∧
  db.colInTable "users" "password_hash" = true ∧
  db.colInTable "users" "last_login" = true ∧
  db.hasTable "app_info" = true ∧
  (db.hasIndex "idx_users_username" = true ∨ db.colInTable "users" "username" = false) ∧
  (db.hasIndex "idx_users_email" = true ∨ db.colInTable "users" "email" = false)

/-- Schema extension: every table present in `a` is present in `b` and keeps
every column declaration (name and type included). -/
def schemaLe (a b : DbState) : Prop :=
  ∀ n t, a.lookupTable n = some t →
    ∃ t', b.lookupTable n = some t' ∧ ∀ c ∈ t.columns, c ∈ t'.columns

/-- The column declarations of the legacy `users(id, username, email,
created_at)` shape, by name. -/
def legacyNames : List String := ["id", "username", "email", "created_at"]

/-- A database whose only table is unrelated to the target schema
(exercises the fresh path of the reconciler on a non-empty file). -/
def unrelatedDb : DbState :=
  ⟨[("inventory", ⟨[⟨"sku", "TEXT", false, false, false, false⟩], [], 1⟩)], []⟩

/-- A file whose `app_info` table lacks the `key` column: seeding it raises
an uncaught `sqlite3.Error` on the fresh path. -/
def badAppInfoDb : DbState :=
  ⟨[("app_info", ⟨[⟨"k", "TEXT", false, false, false, false⟩], [], 1⟩)], []⟩

/-- A legacy `users`-only file for the witness of the migration claim:
one pre-existing row, no auth columns, no `app_info`. -/
def legacyUsersDb : DbState :=
  ⟨[("users", ⟨[⟨"id", "INTEGER", false, false, true, false⟩,
               ⟨"username", "TEXT", true, true, false, false⟩,
               ⟨"email", "TEXT", true, true, false, false⟩,
               ⟨"created_at", "TIMESTAMP", false, false, false, true⟩],
      [[("id", Value.int 1), ("username", Value.text "alice"),
        ("email", Value.text "alice@example.com"), ("created_at", Value.ts 5)]], 2⟩)], []⟩

/-- An `app_info` table in the target shape holding one existing row for key
"version", for the witnesses of the seeding claims. -/
def seededAppInfoDb : DbState :=
  ⟨[("app_info", ⟨appInfoCols,
      [[("id", Value.int 1), ("key", Value.text "version"),
        ("value", Value.text "0.0.9"), ("created_at", Value.ts 3)]], 2⟩)], []⟩

end InitDb

namespace InitDb

/-! ## Association-list lemmas -/

theorem lookup_cons {β : Type} (n m : String) (u : β) (rest : List (String × β)) :
    List.lookup n ((m, u) :: rest) = if n = m then some u else List.lookup n rest := by
  by_cases h : n = m
  · subst h; simp [List.lookup]
  · have hb : (n == m) = false := beq_eq_false_iff_ne.mpr h
    simp [List.lookup, hb, h]

theorem setTables_cons_self {rest : List (String × Table)} {n : String} {u t : Table} :
    setTables ((n, u) :: rest) n t = (n, t) :: rest := by
  simp [setTables]

theorem setTables_cons_ne {rest : List (String × Table)} {a n : String} {u t : Table}
    (h : a ≠ n) : setTables ((a, u) :: rest) n t = (a, u) :: setTables rest n t := by
  simp [setTables, h]

theorem lookup_append_some {β : Type} {l l' : List (String × β)} {n : String} {t : β}
    (h : List.lookup n l = some t) : List.lookup n (l ++ l') = some t := by
  induction l with
  | nil => simp at h
  | cons p rest ih =>
    obtain ⟨m, u⟩ := p
    rw [List.cons_append, lookup_cons] at *
    by_cases hm : n = m <;> simp_all

theorem lookup_append_none {β : Type} {l l' : List (String × β)} {n : String}
    (h : List.lookup n l = none) : List.lookup n (l ++ l') = List.lookup n l' := by
  induction l with
  | nil => simp
  | cons p rest ih =>
    obtain ⟨m, u⟩ := p
    rw [List.cons_append, lookup_cons] at *
    by_cases hm : n = m
    · rw [if_pos hm] at h; exact absurd h (by simp)
    · rw [if_neg hm] at h ⊢
      exact ih h

theorem lookup_setTables_ne {l : List (String × Table)} {m n : String} (t : Table)
    (h : m ≠ n) : List.lookup m (setTables l n t) = List.lookup m l := by
  induction l with
  | nil => simp [setTables]
  | cons p rest ih =>
    obtain ⟨a, u⟩ := p
    by_cases ha : a = n
    · subst ha
      rw [setTables_cons_self, lookup_cons, lookup_cons, if_neg h, if_neg h]
    · rw [setTables_cons_ne ha, lookup_cons, lookup_cons]
      by_cases ham : m = a
      · simp [ham]
      · rw [if_neg ham, if_neg ham]; exact ih

theorem lookup_setTables_self {l : List (String × Table)} {n : String} {t u : Table}
    (h : List.lookup n l = some u) : List.lookup n (setTables l n t) = some t := by
  induction l with
  | nil => simp at h
  | cons p rest ih =>
    obtain ⟨a, w⟩ := p
    rw [lookup_cons] at h
    by_cases ha : n = a
    · subst ha
      rw [setTables_cons_self, lookup_cons, if_pos rfl]
    · rw [setTables_cons_ne (fun hh => ha hh.symm), lookup_cons, if_neg ha]
      rw [if_neg ha] at h
      exact ih h

theorem lookup_map_cols (l : List (String × Table)) (n : String) :
    List.lookup n (l.map (fun p => (p.1, p.2.columns))) =
      (List.lookup n l).map Table.columns := by
  induction l with
  | nil => simp
  | cons p rest ih =>
    obtain ⟨a, u⟩ := p
    simp only [List.map_cons]
    rw [lookup_cons, lookup_cons]
    by_cases ha : n = a
    · simp [ha]
    · simp [ha, ih]

theorem map_cols_setTables {l : List (String × Table)} {n : String} {t u : Table}
    (h : List.lookup n l = some u) (hc : t.columns = u.columns) :
    (setTables l n t).map (fun p => (p.1, p.2.columns)) =
      l.map (fun p => (p.1, p.2.columns)) := by
  induction l with
  | nil => simp at h
  | cons p rest ih =>
    obtain ⟨a, w⟩ := p
    rw [lookup_cons] at h
    by_cases ha : a = n
    · subst ha
      rw [if_pos rfl] at h
      have hw : w = u := by simpa using h
      subst hw
      rw [setTables_cons_self]
      simp [hc]
    · rw [if_neg (fun hh => ha hh.symm)] at h
      rw [setTables_cons_ne ha]
      simp only [List.map_cons, List.cons.injEq, true_and]
      exact ih h

end InitDb

namespace InitDb

/-! ## State-level lemmas about the primitive statements -/

theorem lookupTable_setTable_ne {db : DbState} {m n : String} {t : Table} (h : m ≠ n) :
    (db.setTable n t).lookupTable m = db.lookupTable m :=
  lookup_setTables_ne t h

theorem lookupTable_setTable_self {db : DbState} {n : String} {t u : Table}
    (h : db.lookupTable n = some u) : (db.setTable n t).lookupTable n = some t :=
  lookup_setTables_self h

theorem indexes_setTable (db : DbState) (n : String) (t : Table) :
    (db.setTable n t).indexes = db.indexes := rfl

theorem schemaOf_setTable {db : DbState} {n : String} {t u : Table}
    (h : db.lookupTable n = some u) (hc : t.columns = u.columns) :
    schemaOf (db.setTable n t) = schemaOf db := by
  unfold schemaOf DbState.setTable
  simp only [Prod.mk.injEq]
  exact ⟨map_cols_setTables h hc, rfl⟩

theorem mapLookup_eq_of_schemaOf {a b : DbState} (h : schemaOf a = schemaOf b) (n : String) :
    (a.lookupTable n).map Table.columns = (b.lookupTable n).map Table.columns := by
  have h1 : a.tables.map (fun p => (p.1, p.2.columns)) =
      b.tables.map (fun p => (p.1, p.2.columns)) := congrArg Prod.fst h
  unfold DbState.lookupTable
  rw [← lookup_map_cols, ← lookup_map_cols, h1]

theorem hasTable_eq_of_schemaOf {a b : DbState} (h : schemaOf a = schemaOf b) (n : String) :
    a.hasTable n = b.hasTable n := by
  have := mapLookup_eq_of_schemaOf h n
  unfold DbState.hasTable
  cases ha : a.lookupTable n <;> cases hb : b.lookupTable n <;> simp_all

theorem tableCols_eq_of_schemaOf {a b : DbState} (h : schemaOf a = schemaOf b) (n : String) :
    a.tableCols n = b.tableCols n := by
  have := mapLookup_eq_of_schemaOf h n
  unfold DbState.tableCols
  rw [this]

theorem colInTable_eq_of_schemaOf {a b : DbState} (h : schemaOf a = schemaOf b) (n c : String) :
    a.colInTable n c = b.colInTable n c := by
  unfold DbState.colInTable
  rw [tableCols_eq_of_schemaOf h]

theorem hasIndex_eq_of_schemaOf {a b : DbState} (h : schemaOf a = schemaOf b) (n : String) :
    a.hasIndex n = b.hasIndex n := by
  have h2 : a.indexes = b.indexes := congrArg Prod.snd h
  unfold DbState.hasIndex
  rw [h2]

theorem hasTable_false_lookup {db : DbState} {n : String} (h : db.hasTable n = false) :
    db.lookupTable n = none := by
  unfold DbState.hasTable at h
  cases hx : db.lookupTable n <;> simp_all

theorem hasTable_true_lookup {db : DbState} {n : String} (h : db.hasTable n = true) :
    ∃ t, db.lookupTable n = some t := by
  unfold DbState.hasTable at h
  cases hx : db.lookupTable n <;> simp_all

theorem colInTable_eq_hasCol {db : DbState} {n : String} {t : Table}
    (h : db.lookupTable n = some t) (c : String) : db.colInTable n c = t.hasCol c := by
  unfold DbState.colInTable DbState.tableCols Table.hasCol
  rw [h]
  rfl

/-! ### CREATE TABLE IF NOT EXISTS -/

theorem createTIN_of_hasTable {db : DbState} {n : String} {cols : List Column}
    (h : db.hasTable n = true) : createTableIfNotExists db n cols = db := by
  simp [createTableIfNotExists, h]

theorem lookupTable_createTIN_ne {db : DbState} {n m : String} {cols : List Column}
    (h : m ≠ n) : (createTableIfNotExists db n cols).lookupTable m = db.lookupTable m := by
  unfold createTableIfNotExists
  split
  · rfl
  · show List.lookup m (db.tables ++ [(n, ⟨cols, [], 1⟩)]) = _
    cases hm : List.lookup m db.tables
    · rw [lookup_append_none hm, lookup_cons, if_neg h]
      show _ = List.lookup m db.tables
      rw [hm]
      rfl
    · rw [lookup_append_some hm]
      exact hm.symm

theorem lookupTable_createTIN_self {db : DbState} {n : String} {cols : List Column}
    (h : db.hasTable n = false) :
    (createTableIfNotExists db n cols).lookupTable n = some ⟨cols, [], 1⟩ := by
  unfold createTableIfNotExists
  rw [if_neg (by simp [h])]
  show List.lookup n (db.tables ++ [(n, ⟨cols, [], 1⟩)]) = _
  have hm : List.lookup n db.tables = none := hasTable_false_lookup h
  rw [lookup_append_none hm, lookup_cons, if_pos rfl]

theorem hasTable_createTIN_self (db : DbState) (n : String) (cols : List Column) :
    (createTableIfNotExists db n cols).hasTable n = true := by
  cases h : db.hasTable n
  · unfold DbState.hasTable
    rw [lookupTable_createTIN_self h]
    rfl
  · rw [createTIN_of_hasTable h]
    exact h

theorem hasTable_createTIN_ne {db : DbState} {n m : String} {cols : List Column} (h : m ≠ n) :
    (createTableIfNotExists db n cols).hasTable m = db.hasTable m := by
  unfold DbState.hasTable
  rw [lookupTable_createTIN_ne h]

theorem indexes_createTIN (db : DbState) (n : String) (cols : List Column) :
    (createTableIfNotExists db n cols).indexes = db.indexes := by
  unfold createTableIfNotExists
  split <;> rfl

end InitDb

namespace InitDb

/-! ### CREATE INDEX IF NOT EXISTS -/

theorem createIndex_ok_tables {db db' : DbState} {idx tbl col : String}
    (h : createIndexIfNotExists db idx tbl col = .ok db') : db'.tables = db.tables := by
  unfold createIndexIfNotExists at h
  split at h
  · cases h; rfl
  · split at h
    · cases h; rfl
    · cases h

theorem lookupTable_eq_of_tables_eq {a b : DbState} (h : a.tables = b.tables) (n : String) :
    a.lookupTable n = b.lookupTable n := by
  unfold DbState.lookupTable
  rw [h]

theorem createIndex_ok_hasIndex_mono {db db' : DbState} {idx tbl col m : String}
    (h : createIndexIfNotExists db idx tbl col = .ok db') (hm : db.hasIndex m = true) :
    db'.hasIndex m = true := by
  unfold createIndexIfNotExists at h
  split at h
  · cases h; exact hm
  · split at h
    · cases h
      unfold DbState.hasIndex DbState.indexes at *
      simp_all [List.any_append]
    · cases h

theorem createIndex_error_of {db : DbState} {idx tbl col : String}
    (h1 : db.hasIndex idx = false) (h2 : db.colInTable tbl col = false) :
    createIndexIfNotExists db idx tbl col = .error () := by
  unfold createIndexIfNotExists
  rw [if_neg (by simp [h1]), if_neg (by simp [h2])]

theorem createIndex_ok_of {db : DbState} (idx : String) {tbl col : String}
    (h1 : db.hasTable tbl = true) (h2 : db.colInTable tbl col = true) :
    ∃ db', createIndexIfNotExists db idx tbl col = .ok db' ∧ db'.tables = db.tables ∧
      db'.hasIndex idx = true ∧ ∀ m, db.hasIndex m = true → db'.hasIndex m = true := by
  unfold createIndexIfNotExists
  split
  · rename_i hh
    exact ⟨db, rfl, rfl, hh, fun m hm => hm⟩
  · rw [if_pos (by simp [h1, h2])]
    refine ⟨_, rfl, rfl, ?_, ?_⟩
    · unfold DbState.hasIndex DbState.indexes
      simp [List.any_append]
    · intro m hm
      unfold DbState.hasIndex DbState.indexes at *
      simp_all [List.any_append]

/-! ### the guarded index creation of the incremental path -/

theorem tables_tryCreateIndex (db : DbState) (idx tbl col : String) :
    (tryCreateIndex db idx tbl col).tables = db.tables := by
  unfold tryCreateIndex
  split
  · rfl
  · rename_i d h
    exact createIndex_ok_tables h

theorem lookupTable_tryCreateIndex (db : DbState) (idx tbl col n : String) :
    (tryCreateIndex db idx tbl col).lookupTable n = db.lookupTable n :=
  lookupTable_eq_of_tables_eq (tables_tryCreateIndex db idx tbl col) n

theorem hasTable_tryCreateIndex (db : DbState) (idx tbl col n : String) :
    (tryCreateIndex db idx tbl col).hasTable n = db.hasTable n := by
  unfold DbState.hasTable
  rw [lookupTable_tryCreateIndex]

theorem colInTable_tryCreateIndex (db : DbState) (idx tbl col n c : String) :
    (tryCreateIndex db idx tbl col).colInTable n c = db.colInTable n c := by
  unfold DbState.colInTable DbState.tableCols
  rw [lookupTable_tryCreateIndex]

theorem hasIndex_tryCreateIndex_mono {db : DbState} {idx tbl col m : String}
    (hm : db.hasIndex m = true) : (tryCreateIndex db idx tbl col).hasIndex m = true := by
  unfold tryCreateIndex
  split
  · exact hm
  · rename_i d h
    exact createIndex_ok_hasIndex_mono h hm

theorem hasIndex_tryCreateIndex_self {db : DbState} {idx tbl col : String}
    (h1 : db.hasTable tbl = true) (h2 : db.colInTable tbl col = true) :
    (tryCreateIndex db idx tbl col).hasIndex idx = true := by
  obtain ⟨db', hok, _, hidx, _⟩ := createIndex_ok_of idx h1 h2
  unfold tryCreateIndex
  rw [hok]
  exact hidx

theorem tryCreateIndex_of_no_col {db : DbState} {idx tbl col : String}
    (h1 : db.hasIndex idx = false) (h2 : db.colInTable tbl col = false) :
    tryCreateIndex db idx tbl col = db := by
  unfold tryCreateIndex
  rw [createIndex_error_of h1 h2]

end InitDb

namespace InitDb

/-! ### the guarded ALTER TABLE steps of the incremental path -/

theorem hasCol_append {cols : List Column} {rows : List Row} {nid : Nat} (c : Column)
    (c' : String) :
    (Table.mk (cols ++ [c]) rows nid).hasCol c' =
      ((Table.mk cols rows nid).hasCol c' || (c.name == c')) := by
  unfold Table.hasCol
  simp [List.any_append]

theorem tryAddPH_precise {db : DbState} {t : Table} (h : db.lookupTable "users" = some t)
    (hc : t.hasCol "password_hash" = false) :
    tryAddPasswordHash db =
      (db.setTable "users" ⟨t.columns ++ [phColAdded], t.rows, t.nextId⟩).setTable "users"
        ⟨t.columns ++ [phColAdded], t.rows.map backfillRow, t.nextId⟩ := by
  have hcn : t.hasCol phColAdded.name = false := hc
  have halter : alterAddColumn db "users" phColAdded =
      .ok (db.setTable "users" ⟨t.columns ++ [phColAdded], t.rows, t.nextId⟩) := by
    simp only [alterAddColumn, h]
    rw [if_neg (by rw [hcn]; exact Bool.false_ne_true)]
  have h1 : (db.setTable "users" ⟨t.columns ++ [phColAdded], t.rows, t.nextId⟩).lookupTable
      "users" = some ⟨t.columns ++ [phColAdded], t.rows, t.nextId⟩ :=
    lookupTable_setTable_self h
  have hphin : (Table.mk (t.columns ++ [phColAdded]) t.rows t.nextId).hasCol
      "password_hash" = true := by
    rw [hasCol_append]
    simp [phColAdded]
  have hupd : updateBackfillPH (db.setTable "users"
        ⟨t.columns ++ [phColAdded], t.rows, t.nextId⟩) =
      .ok ((db.setTable "users" ⟨t.columns ++ [phColAdded], t.rows, t.nextId⟩).setTable "users"
        ⟨t.columns ++ [phColAdded], t.rows.map backfillRow, t.nextId⟩) := by
    simp only [updateBackfillPH, h1]
    rw [if_pos hphin]
  simp only [tryAddPasswordHash, halter, hupd]

theorem tryAddPH_spec {db : DbState} {t : Table} (h : db.lookupTable "users" = some t) :
    ∃ t', (tryAddPasswordHash db).lookupTable "users" = some t' ∧
      t'.hasCol "password_hash" = true ∧
      (∀ c, c ≠ "password_hash" → t'.hasCol c = t.hasCol c) ∧
      (∀ m, m ≠ "users" → (tryAddPasswordHash db).lookupTable m = db.lookupTable m) ∧
      (tryAddPasswordHash db).indexes = db.indexes := by
  by_cases hc : t.hasCol "password_hash" = true
  · have hcn : t.hasCol phColAdded.name = true := hc
    have halter : alterAddColumn db "users" phColAdded = .error () := by
      simp only [alterAddColumn, h]
      rw [if_pos hcn]
    have hrun : tryAddPasswordHash db = db := by
      simp only [tryAddPasswordHash, halter]
    rw [hrun]
    exact ⟨t, h, hc, fun c _ => rfl, fun m _ => rfl, rfl⟩
  · have hcf : t.hasCol "password_hash" = false := by
      cases hx : t.hasCol "password_hash"
      · rfl
      · exact absurd hx hc
    rw [tryAddPH_precise h hcf]
    have h1 : (db.setTable "users" ⟨t.columns ++ [phColAdded], t.rows, t.nextId⟩).lookupTable
        "users" = some ⟨t.columns ++ [phColAdded], t.rows, t.nextId⟩ :=
      lookupTable_setTable_self h
    refine ⟨⟨t.columns ++ [phColAdded], t.rows.map backfillRow, t.nextId⟩,
      lookupTable_setTable_self h1, ?_, ?_, ?_, rfl⟩
    · rw [hasCol_append]
      simp [phColAdded]
    · intro c hcne
      rw [hasCol_append]
      have hne : (phColAdded.name == c) = false := by
        simp only [phColAdded]
        exact beq_eq_false_iff_ne.mpr (fun hh => hcne hh.symm)
      rw [hne, Bool.or_false]
      rfl
    · intro m hm
      rw [lookupTable_setTable_ne hm, lookupTable_setTable_ne hm]

theorem tryAddLL_precise {db : DbState} {t : Table} (h : db.lookupTable "users" = some t)
    (hc : t.hasCol "last_login" = false) :
    tryAddLastLogin db = db.setTable "users" ⟨t.columns ++ [llColAdded], t.rows, t.nextId⟩ := by
  have hcn : t.hasCol llColAdded.name = false := hc
  have halter : alterAddColumn db "users" llColAdded =
      .ok (db.setTable "users" ⟨t.columns ++ [llColAdded], t.rows, t.nextId⟩) := by
    simp only [alterAddColumn, h]
    rw [if_neg (by rw [hcn]; exact Bool.false_ne_true)]
  simp only [tryAddLastLogin, halter]

theorem tryAddLL_spec {db : DbState} {t : Table} (h : db.lookupTable "users" = some t) :
    ∃ t', (tryAddLastLogin db).lookupTable "users" = some t' ∧
      t'.hasCol "last_login" = true ∧
      (∀ c, c ≠ "last_login" → t'.hasCol c = t.hasCol c) ∧
      (∀ m, m ≠ "users" → (tryAddLastLogin db).lookupTable m = db.lookupTable m) ∧
      (tryAddLastLogin db).indexes = db.indexes := by
  by_cases hc : t.hasCol "last_login" = true
  · have hcn : t.hasCol llColAdded.name = true := hc
    have halter : alterAddColumn db "users" llColAdded = .error () := by
      simp only [alterAddColumn, h]
      rw [if_pos hcn]
    have hrun : tryAddLastLogin db = db := by
      simp only [tryAddLastLogin, halter]
    rw [hrun]
    exact ⟨t, h, hc, fun c _ => rfl, fun m _ => rfl, rfl⟩
  · have hcf : t.hasCol "last_login" = false := by
      cases hx : t.hasCol "last_login"
      · rfl
      · exact absurd hx hc
    rw [tryAddLL_precise h hcf]
    refine ⟨⟨t.columns ++ [llColAdded], t.rows, t.nextId⟩,
      lookupTable_setTable_self h, ?_, ?_, ?_, rfl⟩
    · rw [hasCol_append]
      simp [llColAdded]
    · intro c hcne
      rw [hasCol_append]
      have hne : (llColAdded.name == c) = false := by
        simp only [llColAdded]
        exact beq_eq_false_iff_ne.mpr (fun hh => hcne hh.symm)
      rw [hne, Bool.or_false]
    · intro m hm
      rw [lookupTable_setTable_ne hm]

end InitDb

namespace InitDb

/-! ### INSERT OR REPLACE seeding: schema preservation -/

theorem seedAppInfo_ok {db db' : DbState} {k v : String} {now : Nat}
    (hok : seedAppInfo db k v now = .ok db') :
    schemaOf db' = schemaOf db ∧
      ∀ m, m ≠ "app_info" → db'.lookupTable m = db.lookupTable m := by
  cases hl : db.lookupTable "app_info" with
  | none =>
    simp only [seedAppInfo, hl] at hok
    exact absurd hok (by simp)
  | some t =>
    simp only [seedAppInfo, hl] at hok
    split at hok
    · split at hok
      · exact absurd hok (by simp)
      · cases hok
        constructor
        · exact schemaOf_setTable hl rfl
        · intro m hm
          exact lookupTable_setTable_ne hm
    · exact absurd hok (by simp)

theorem seedAll_spec (db : DbState) (now : Nat) :
    schemaOf (resultDb (seedAllUnguarded db now)) = schemaOf db ∧
      ∀ m, m ≠ "app_info" →
        (resultDb (seedAllUnguarded db now)).lookupTable m = db.lookupTable m := by
  unfold seedAllUnguarded
  cases h1 : seedAppInfo db "project_name" "dsp_db" now with
  | error e =>
    simp [h1, resultDb]
  | ok db1 =>
    obtain ⟨hs1, hl1⟩ := seedAppInfo_ok h1
    simp only [h1]
    cases h2 : seedAppInfo db1 "version" "0.1.0" now with
    | error e =>
      simp only [h2, resultDb]
      exact ⟨hs1, hl1⟩
    | ok db2 =>
      obtain ⟨hs2, hl2⟩ := seedAppInfo_ok h2
      simp only [h2]
      cases h3 : seedAppInfo db2 "author" "John Doe" now with
      | error e =>
        simp only [h3, resultDb]
        exact ⟨hs2.trans hs1, fun m hm => (hl2 m hm).trans (hl1 m hm)⟩
      | ok db3 =>
        obtain ⟨hs3, hl3⟩ := seedAppInfo_ok h3
        simp only [h3]
        cases h4 : seedAppInfo db3 "description" "" now with
        | error e =>
          simp only [h4, resultDb]
          exact ⟨(hs3.trans hs2).trans hs1,
            fun m hm => ((hl3 m hm).trans (hl2 m hm)).trans (hl1 m hm)⟩
        | ok db4 =>
          obtain ⟨hs4, hl4⟩ := seedAppInfo_ok h4
          simp only [h4, resultDb]
          exact ⟨((hs4.trans hs3).trans hs2).trans hs1,
            fun m hm => (((hl4 m hm).trans (hl3 m hm)).trans (hl2 m hm)).trans (hl1 m hm)⟩

theorem seedBlock_spec (db : DbState) (now : Nat) :
    schemaOf (seedBlockGuarded db now) = schemaOf db ∧
      ∀ m, m ≠ "app_info" →
        (seedBlockGuarded db now).lookupTable m = db.lookupTable m :=
  seedAll_spec db now

end InitDb

namespace InitDb

/-! ## The structural fixpoint reached after one run -/

theorem stable_of_schemaOf_eq {a b : DbState} (h : schemaOf a = schemaOf b)
    (hs : Stable b) : Stable a := by
  obtain ⟨h1, h2, h3, h4, h5, h6⟩ := hs
  refine ⟨?_, ?_, ?_, ?_, ?_, ?_⟩
  · rw [hasTable_eq_of_schemaOf h]; exact h1
  · rw [colInTable_eq_of_schemaOf h]; exact h2
  · rw [colInTable_eq_of_schemaOf h]; exact h3
  · rw [hasTable_eq_of_schemaOf h]; exact h4
  · rw [hasIndex_eq_of_schemaOf h, colInTable_eq_of_schemaOf h]; exact h5
  · rw [hasIndex_eq_of_schemaOf h, colInTable_eq_of_schemaOf h]; exact h6

theorem hasTable_eq_of_tables_eq {a b : DbState} (h : a.tables = b.tables) (n : String) :
    a.hasTable n = b.hasTable n := by
  unfold DbState.hasTable
  rw [lookupTable_eq_of_tables_eq h]

theorem colInTable_eq_of_tables_eq {a b : DbState} (h : a.tables = b.tables) (n c : String) :
    a.colInTable n c = b.colInTable n c := by
  unfold DbState.colInTable DbState.tableCols
  rw [lookupTable_eq_of_tables_eq h]

/-! ## Reductions of `main` -/

theorem runFile_some (db : DbState) (now : Nat) :
    runFile (some db) now = some (resultDb (migrateExistingDb db now noFaults)) := by
  unfold runFile main
  cases h : migrateExistingDb db now noFaults <;> simp [h, resultDb]

theorem runFile_none (now : Nat) :
    runFile none now = some (resultDb (createBaseSchema emptyDb now)) := by
  unfold runFile main
  cases h : createBaseSchema emptyDb now <;> simp [h, resultDb]

/-! ## The fresh path: `_create_base_schema` -/

theorem createBase_eq {db db3 db4 : DbState} {now : Nat}
    (h3 : createIndexIfNotExists
        (createTableIfNotExists (createTableIfNotExists db "app_info" appInfoCols)
          "users" usersCols)
        "idx_users_username" "users" "username" = .ok db3)
    (h4 : createIndexIfNotExists db3 "idx_users_email" "users" "email" = .ok db4) :
    createBaseSchema db now = seedAllUnguarded db4 now := by
  simp only [createBaseSchema, h3, h4]

theorem createBase_facts {db : DbState} (now : Nat) (h : db.hasTable "users" = false) :
    (resultDb (createBaseSchema db now)).hasTable "app_info" = true ∧
    (resultDb (createBaseSchema db now)).lookupTable "users" = some ⟨usersCols, [], 1⟩ ∧
    (resultDb (createBaseSchema db now)).hasIndex "idx_users_username" = true ∧
    (resultDb (createBaseSchema db now)).hasIndex "idx_users_email" = true := by
  have hu1 : (createTableIfNotExists db "app_info" appInfoCols).hasTable "users" = false := by
    rw [hasTable_createTIN_ne (by decide)]
    exact h
  have hu2 : (createTableIfNotExists (createTableIfNotExists db "app_info" appInfoCols)
      "users" usersCols).lookupTable "users" = some ⟨usersCols, [], 1⟩ :=
    lookupTable_createTIN_self hu1
  have hai2 : (createTableIfNotExists (createTableIfNotExists db "app_info" appInfoCols)
      "users" usersCols).hasTable "app_info" = true := by
    rw [hasTable_createTIN_ne (by decide)]
    exact hasTable_createTIN_self db "app_info" appInfoCols
  have husers2 : (createTableIfNotExists (createTableIfNotExists db "app_info" appInfoCols)
      "users" usersCols).hasTable "users" = true := by
    unfold DbState.hasTable
    rw [hu2]
    rfl
  have hcolU : (createTableIfNotExists (createTableIfNotExists db "app_info" appInfoCols)
      "users" usersCols).colInTable "users" "username" = true := by
    rw [colInTable_eq_hasCol hu2]
    rfl
  have hcolE : (createTableIfNotExists (createTableIfNotExists db "app_info" appInfoCols)
      "users" usersCols).colInTable "users" "email" = true := by
    rw [colInTable_eq_hasCol hu2]
    rfl
  obtain ⟨db3, h3, htab3, hidx3, hmono3⟩ :=
    createIndex_ok_of "idx_users_username" husers2 hcolU
  have hu3 : db3.lookupTable "users" = some ⟨usersCols, [], 1⟩ :=
    (lookupTable_eq_of_tables_eq htab3 "users").trans hu2
  have husers3 : db3.hasTable "users" = true := by
    rw [hasTable_eq_of_tables_eq htab3]
    exact husers2
  have hcolE3 : db3.colInTable "users" "email" = true := by
    rw [colInTable_eq_of_tables_eq htab3]
    exact hcolE
  obtain ⟨db4, h4, htab4, hidx4, hmono4⟩ :=
    createIndex_ok_of "idx_users_email" husers3 hcolE3
  rw [createBase_eq h3 h4]
  obtain ⟨hsAll, hlAll⟩ := seedAll_spec db4 now
  refine ⟨?_, ?_, ?_, ?_⟩
  · rw [hasTable_eq_of_schemaOf hsAll, hasTable_eq_of_tables_eq htab4,
      hasTable_eq_of_tables_eq htab3]
    exact hai2
  · rw [hlAll "users" (by decide), lookupTable_eq_of_tables_eq htab4]
    exact hu3
  · rw [hasIndex_eq_of_schemaOf hsAll]
    exact hmono4 _ hidx3
  · rw [hasIndex_eq_of_schemaOf hsAll]
    exact hidx4

theorem stable_of_target_facts {db : DbState}
    (h1 : db.hasTable "app_info" = true)
    (h2 : db.lookupTable "users" = some ⟨usersCols, [], 1⟩)
    (h3 : db.hasIndex "idx_users_username" = true)
    (h4 : db.hasIndex "idx_users_email" = true) : Stable db := by
  refine ⟨?_, ?_, ?_, h1, Or.inl h3, Or.inl h4⟩
  · unfold DbState.hasTable
    rw [h2]
    rfl
  · rw [colInTable_eq_hasCol h2]
    rfl
  · rw [colInTable_eq_hasCol h2]
    rfl

end InitDb

namespace InitDb

/-! ## Step lemmas for the incremental path -/

theorem columnExists_true_elim {db : DbState} {t c : String} {cf : Bool}
    (h : columnExists db t c cf = true) : db.colInTable t c = true := by
  unfold columnExists at h
  split at h
  · exact absurd h (by simp)
  · exact h

theorem phStep_spec {db : DbState} {t : Table} (cf : Bool)
    (hlt : db.lookupTable "users" = some t) :
    ∃ t', (phStep db cf).lookupTable "users" = some t' ∧
      t'.hasCol "password_hash" = true ∧
      (∀ c, c ≠ "password_hash" → t'.hasCol c = t.hasCol c) ∧
      (∀ m, m ≠ "users" → (phStep db cf).lookupTable m = db.lookupTable m) ∧
      (phStep db cf).indexes = db.indexes := by
  unfold phStep
  by_cases hcond : columnExists db "users" "password_hash" cf = true
  · rw [if_pos hcond]
    have hc : t.hasCol "password_hash" = true := by
      rw [← colInTable_eq_hasCol hlt]
      exact columnExists_true_elim hcond
    exact ⟨t, hlt, hc, fun c _ => rfl, fun m _ => rfl, rfl⟩
  · rw [if_neg hcond]
    exact tryAddPH_spec hlt

theorem llStep_spec {db : DbState} {t : Table} (cf : Bool)
    (hlt : db.lookupTable "users" = some t) :
    ∃ t', (llStep db cf).lookupTable "users" = some t' ∧
      t'.hasCol "last_login" = true ∧
      (∀ c, c ≠ "last_login" → t'.hasCol c = t.hasCol c) ∧
      (∀ m, m ≠ "users" → (llStep db cf).lookupTable m = db.lookupTable m) ∧
      (llStep db cf).indexes = db.indexes := by
  unfold llStep
  by_cases hcond : columnExists db "users" "last_login" cf = true
  · rw [if_pos hcond]
    have hc : t.hasCol "last_login" = true := by
      rw [← colInTable_eq_hasCol hlt]
      exact columnExists_true_elim hcond
    exact ⟨t, hlt, hc, fun c _ => rfl, fun m _ => rfl, rfl⟩
  · rw [if_neg hcond]
    exact tryAddLL_spec hlt

theorem idxStep_tables (db : DbState) (idx tbl col : String) (ex : Bool) :
    (idxStep db idx tbl col ex).tables = db.tables := by
  unfold idxStep
  split
  · rfl
  · exact tables_tryCreateIndex db idx tbl col

theorem idxStep_hasIndex_mono {db : DbState} {idx tbl col m : String} {ex : Bool}
    (hm : db.hasIndex m = true) : (idxStep db idx tbl col ex).hasIndex m = true := by
  unfold idxStep
  split
  · exact hm
  · exact hasIndex_tryCreateIndex_mono hm

theorem idxStep_after {db : DbState} (idx : String) {tbl : String} (col : String)
    (htbl : db.hasTable tbl = true) :
    (idxStep db idx tbl col (db.hasIndex idx)).hasIndex idx = true ∨
      (idxStep db idx tbl col (db.hasIndex idx)).colInTable tbl col = false := by
  cases hx : db.hasIndex idx with
  | true =>
    left
    unfold idxStep
    rw [if_pos rfl]
    exact hx
  | false =>
    cases hc : db.colInTable tbl col with
    | true =>
      left
      unfold idxStep
      rw [if_neg (by simp)]
      exact hasIndex_tryCreateIndex_self htbl hc
    | false =>
      right
      unfold idxStep
      rw [if_neg (by simp), tryCreateIndex_of_no_col hx hc]
      exact hc

theorem idxStep_of_stable {db : DbState} {idx tbl col : String}
    (h : db.hasIndex idx = true ∨ db.colInTable tbl col = false) :
    idxStep db idx tbl col (db.hasIndex idx) = db := by
  cases hx : db.hasIndex idx with
  | true =>
    unfold idxStep
    rw [if_pos rfl]
  | false =>
    have hc : db.colInTable tbl col = false := by
      rcases h with h | h
      · rw [hx] at h
        exact absurd h (by simp)
      · exact h
    unfold idxStep
    rw [if_neg (by simp), tryCreateIndex_of_no_col hx hc]

theorem appInfoStep_after (db : DbState) :
    (appInfoStep db (db.hasTable "app_info")).hasTable "app_info" = true ∧
      (∀ m, m ≠ "app_info" →
        (appInfoStep db (db.hasTable "app_info")).lookupTable m = db.lookupTable m) ∧
      (appInfoStep db (db.hasTable "app_info")).indexes = db.indexes := by
  cases hx : db.hasTable "app_info" with
  | true =>
    unfold appInfoStep
    rw [if_pos rfl]
    exact ⟨hx, fun m _ => rfl, rfl⟩
  | false =>
    unfold appInfoStep
    rw [if_neg (by simp)]
    refine ⟨hasTable_createTIN_self db "app_info" appInfoCols, ?_, indexes_createTIN db _ _⟩
    intro m hm
    exact lookupTable_createTIN_ne hm

theorem appInfoStep_of_present {db : DbState} (h : db.hasTable "app_info" = true) :
    appInfoStep db (db.hasTable "app_info") = db := by
  unfold appInfoStep
  rw [if_pos h]

end InitDb

namespace InitDb

/-! ## Behaviour of `_migrate_existing_db` -/

theorem hasIndex_eq_of_indexes_eq {a b : DbState} (h : a.indexes = b.indexes) (n : String) :
    a.hasIndex n = b.hasIndex n := by
  unfold DbState.hasIndex
  rw [h]

theorem migrate_users_missing {db : DbState} {fl : Faults} (now : Nat)
    (h : db.hasTable "users" = false) (ht : fl.tableFault = false) :
    migrateExistingDb db now fl = createBaseSchema db now := by
  simp [migrateExistingDb, tableExists, ht, h]

theorem stable_migrate {db : DbState} (now : Nat) (hs : Stable db) :
    migrateExistingDb db now noFaults = .ok (seedBlockGuarded db now) := by
  obtain ⟨h1, h2, h3, h4, h5, h6⟩ := hs
  have hph : phStep db false = db := by
    unfold phStep
    rw [if_pos (by simp [columnExists, h2])]
  have hll : llStep db false = db := by
    unfold llStep
    rw [if_pos (by simp [columnExists, h3])]
  have hidx1 : idxStep db "idx_users_username" "users" "username"
      (db.hasIndex "idx_users_username") = db := idxStep_of_stable h5
  have hidx2 : idxStep db "idx_users_email" "users" "email"
      (db.hasIndex "idx_users_email") = db := idxStep_of_stable h6
  have hai : appInfoStep db (db.hasTable "app_info") = db := appInfoStep_of_present h4
  simp [migrateExistingDb, tableExists, indexExists, noFaults, h1, hph, hll, hidx1, hidx2, hai]

theorem migrate_incremental {db : DbState} (fl : Faults) (now : Nat)
    (h : db.hasTable "users" = true) (ht : fl.tableFault = false)
    (hi : fl.indexFault = false) :
    ∃ db', migrateExistingDb db now fl = .ok db' ∧ Stable db' := by
  obtain ⟨t, hlt⟩ := hasTable_true_lookup h
  obtain ⟨t1, hlt1, hph1, hcols1, hpres1, hidxeq1⟩ := phStep_spec fl.columnFault hlt
  obtain ⟨t2, hlt2, hll2, hcols2, hpres2, hidxeq2⟩ := llStep_spec fl.columnFault hlt1
  have hphB : t2.hasCol "password_hash" = true := by
    rw [hcols2 "password_hash" (by decide)]
    exact hph1
  refine ⟨?w, ?_, ?_⟩
  case w => exact seedBlockGuarded (appInfoStep
      (idxStep
        (idxStep (llStep (phStep db fl.columnFault) fl.columnFault)
          "idx_users_username" "users" "username"
          ((llStep (phStep db fl.columnFault) fl.columnFault).hasIndex "idx_users_username"))
        "idx_users_email" "users" "email"
        ((idxStep (llStep (phStep db fl.columnFault) fl.columnFault)
          "idx_users_username" "users" "username"
          ((llStep (phStep db fl.columnFault) fl.columnFault).hasIndex
            "idx_users_username")).hasIndex "idx_users_email"))
      ((idxStep
        (idxStep (llStep (phStep db fl.columnFault) fl.columnFault)
          "idx_users_username" "users" "username"
          ((llStep (phStep db fl.columnFault) fl.columnFault).hasIndex "idx_users_username"))
        "idx_users_email" "users" "email"
        ((idxStep (llStep (phStep db fl.columnFault) fl.columnFault)
          "idx_users_username" "users" "username"
          ((llStep (phStep db fl.columnFault) fl.columnFault).hasIndex
            "idx_users_username")).hasIndex "idx_users_email")).hasTable "app_info")) now
  · simp [migrateExistingDb, tableExists, indexExists, ht, hi, h]
  · generalize hB : llStep (phStep db fl.columnFault) fl.columnFault = B
    rw [hB] at hlt2
    have husersB : B.hasTable "users" = true := by
      unfold DbState.hasTable
      rw [hlt2]
      rfl
    have hidxA1 := idxStep_after "idx_users_username" "username" husersB
    have htabsC := idxStep_tables B "idx_users_username" "users" "username"
      (B.hasIndex "idx_users_username")
    generalize hC : idxStep B "idx_users_username" "users" "username"
      (B.hasIndex "idx_users_username") = C
    rw [hC] at hidxA1 htabsC
    have hltC : C.lookupTable "users" = some t2 := by
      rw [lookupTable_eq_of_tables_eq htabsC]
      exact hlt2
    have husersC : C.hasTable "users" = true := by
      rw [hasTable_eq_of_tables_eq htabsC]
      exact husersB
    have hidxA2 := idxStep_after "idx_users_email" "email" husersC
    have htabsD := idxStep_tables C "idx_users_email" "users" "email"
      (C.hasIndex "idx_users_email")
    have hmonoD : C.hasIndex "idx_users_username" = true →
        (idxStep C "idx_users_email" "users" "email"
          (C.hasIndex "idx_users_email")).hasIndex "idx_users_username" = true :=
      fun hh => idxStep_hasIndex_mono hh
    generalize hD : idxStep C "idx_users_email" "users" "email"
      (C.hasIndex "idx_users_email") = D
    rw [hD] at hidxA2 htabsD hmonoD
    have hltD : D.lookupTable "users" = some t2 := by
      rw [lookupTable_eq_of_tables_eq htabsD]
      exact hltC
    have hdis1D : D.hasIndex "idx_users_username" = true ∨
        D.colInTable "users" "username" = false := by
      rcases hidxA1 with hh | hh
      · exact Or.inl (hmonoD hh)
      · right
        rw [colInTable_eq_of_tables_eq htabsD]
        exact hh
    obtain ⟨hE1, hE2, hE3⟩ := appInfoStep_after D
    generalize hE : appInfoStep D (D.hasTable "app_info") = E
    rw [hE] at hE1 hE2 hE3
    have hltE : E.lookupTable "users" = some t2 := by
      rw [hE2 "users" (by decide)]
      exact hltD
    have husersE : E.hasTable "users" = true := by
      unfold DbState.hasTable
      rw [hltE]
      rfl
    have hdis1E : E.hasIndex "idx_users_username" = true ∨
        E.colInTable "users" "username" = false := by
      rcases hdis1D with hh | hh
      · left
        rw [hasIndex_eq_of_indexes_eq hE3]
        exact hh
      · right
        rw [colInTable_eq_hasCol hltE]
        rw [colInTable_eq_hasCol hltD] at hh
        exact hh
    have hdis2E : E.hasIndex "idx_users_email" = true ∨
        E.colInTable "users" "email" = false := by
      rcases hidxA2 with hh | hh
      · left
        rw [hasIndex_eq_of_indexes_eq hE3]
        exact hh
      · right
        rw [colInTable_eq_hasCol hltE]
        rw [colInTable_eq_hasCol hltD] at hh
        exact hh
    apply stable_of_schemaOf_eq (seedBlock_spec E now).1
    refine ⟨husersE, ?_, ?_, hE1, hdis1E, hdis2E⟩
    · rw [colInTable_eq_hasCol hltE]
      exact hphB
    · rw [colInTable_eq_hasCol hltE]
      exact hll2

end InitDb

namespace InitDb

/-! ## One run always reaches a structural fixpoint -/

theorem run_stable (f : Option DbState) (now : Nat) :
    ∃ db1, runFile f now = some db1 ∧ Stable db1 := by
  cases f with
  | none =>
    rw [runFile_none]
    obtain ⟨f1, f2, f3, f4⟩ := createBase_facts now (show emptyDb.hasTable "users" = false
      from rfl)
    exact ⟨_, rfl, stable_of_target_facts f1 f2 f3 f4⟩
  | some db =>
    rw [runFile_some]
    cases hu : db.hasTable "users" with
    | false =>
      rw [migrate_users_missing now hu rfl]
      obtain ⟨f1, f2, f3, f4⟩ := createBase_facts now hu
      exact ⟨_, rfl, stable_of_target_facts f1 f2 f3 f4⟩
    | true =>
      obtain ⟨db', hok, hs⟩ := migrate_incremental noFaults now hu rfl rfl
      rw [hok]
      exact ⟨db', rfl, hs⟩

/-- C1: for every starting file (including a missing one), running the setup
twice in a row leaves the schema (tables, their columns, and indexes)
identical after run N and run N+1: the second run makes no structural change
the first did not already make.  Stated for an arbitrary starting file, so it
covers every N by instantiating the start with the result of N-1 runs. -/
theorem c1_schema_idempotent (f : Option DbState) (n1 n2 : Nat) :
    (runFile (runFile f n1) n2).map schemaOf = (runFile f n1).map schemaOf := by
  obtain ⟨db1, h1, hs⟩ := run_stable f n1
  rw [h1, runFile_some, stable_migrate n2 hs]
  simp only [resultDb, Option.map_some']
  rw [(seedBlock_spec db1 n2).1]

/-- C2: a run against a non-existent database file ends with `app_info` and
`users` present, `users` having exactly the columns id, username, email,
password_hash, last_login, created_at, and both lookup indexes existing. -/
theorem c2_fresh_file_target (now : Nat) :
    ∃ d, runFile none now = some d ∧
      d.hasTable "app_info" = true ∧
      (d.tableCols "users").map Column.name =
        ["id", "username", "email", "password_hash", "last_login", "created_at"] ∧
      d.hasIndex "idx_users_username" = true ∧
      d.hasIndex "idx_users_email" = true := by
  rw [runFile_none]
  obtain ⟨f1, f2, f3, f4⟩ := createBase_facts now (show emptyDb.hasTable "users" = false
    from rfl)
  refine ⟨_, rfl, f1, ?_, f3, f4⟩
  unfold DbState.tableCols
  rw [f2]
  rfl

/-- C8: whenever the `users` table does not exist — even on a file holding
unrelated tables — the reconciler takes the fresh path (it literally runs
`_create_base_schema` and returns, performing no incremental column checks),
and the full target schema is emitted in that one pass. -/
theorem c8_no_users_fresh_path (db : DbState) (now : Nat)
    (h : db.hasTable "users" = false) :
    migrateExistingDb db now noFaults = createBaseSchema db now ∧
    (resultDb (createBaseSchema db now)).hasTable "app_info" = true ∧
    (resultDb (createBaseSchema db now)).lookupTable "users" = some ⟨usersCols, [], 1⟩ ∧
    (resultDb (createBaseSchema db now)).hasIndex "idx_users_username" = true ∧
    (resultDb (createBaseSchema db now)).hasIndex "idx_users_email" = true := by
  obtain ⟨f1, f2, f3, f4⟩ := createBase_facts now h
  exact ⟨migrate_users_missing now h rfl, f1, f2, f3, f4⟩

/-- Witness for C8 at a concrete file that has an unrelated table but no
`users` table. -/
theorem c8_no_users_fresh_path_witness :
    unrelatedDb.hasTable "users" = false ∧
    (migrateExistingDb unrelatedDb 7 noFaults = createBaseSchema unrelatedDb 7 ∧
     (resultDb (createBaseSchema unrelatedDb 7)).hasTable "app_info" = true ∧
     (resultDb (createBaseSchema unrelatedDb 7)).lookupTable "users" =
       some ⟨usersCols, [], 1⟩ ∧
     (resultDb (createBaseSchema unrelatedDb 7)).hasIndex "idx_users_username" = true ∧
     (resultDb (createBaseSchema unrelatedDb 7)).hasIndex "idx_users_email" = true) :=
  ⟨rfl, c8_no_users_fresh_path unrelatedDb 7 rfl⟩

end InitDb

namespace InitDb

/-- C10: for every table name naming a table that does not exist,
`_column_exists(table, column)` returns False (the `PRAGMA table_info` of a
missing table yields no rows) and, being a total Bool-valued function here,
raises nothing. -/
theorem c10_columnExists_missing_table (db : DbState) (tbl c : String)
    (h : db.hasTable tbl = false) : columnExists db tbl c false = false := by
  unfold columnExists DbState.colInTable DbState.tableCols
  rw [if_neg (by simp), hasTable_false_lookup h]
  rfl

/-- Witness for C10: a concrete database without a `users` table. -/
theorem c10_columnExists_missing_table_witness :
    unrelatedDb.hasTable "users" = false ∧
    columnExists unrelatedDb "users" "password_hash" false = false :=
  ⟨rfl, c10_columnExists_missing_table unrelatedDb "users" "password_hash" rfl⟩

/-- C6 counterexample: not every inspection failure is non-fatal.  A catalog
fault in `_table_exists` propagates as an exception (there is no handler in
that function), and the whole `_migrate_existing_db` run aborts with it
rather than treating the table as missing and continuing. -/
theorem c6_inspection_failure_counterexample :
    tableExists emptyDb "users" true = .error () ∧
    migrateExistingDb emptyDb 0 ⟨true, false, false⟩ = .err emptyDb ∧
    (main (some emptyDb) false ⟨true, false, false⟩ 0).1 = .crashed := by
  refine ⟨rfl, rfl, rfl⟩

/-- C6 amended: only `_column_exists` treats a catalog-query failure as a
warning and reports the column as missing; with every column inspection
faulted, the incremental path still completes (each guarded creation attempt
absorbs its own failure), whereas `_table_exists`/`_index_exists` propagate
their errors. -/
theorem c6_column_inspection_nonfatal :
    (∀ db t c, columnExists db t c true = false) ∧
    (∀ db now, db.hasTable "users" = true →
      ∃ db', migrateExistingDb db now ⟨false, true, false⟩ = .ok db') := by
  constructor
  · intro db t c
    unfold columnExists
    rw [if_pos rfl]
  · intro db now h
    obtain ⟨db', hok, _⟩ :=
      migrate_incremental ⟨false, true, false⟩ now h rfl rfl
    exact ⟨db', hok⟩

/-- Witness for the amended C6 at concrete inputs. -/
theorem c6_column_inspection_nonfatal_witness :
    columnExists emptyDb "users" "password_hash" true = false ∧
    ∃ db', migrateExistingDb legacyUsersDb 3 ⟨false, true, false⟩ = .ok db' :=
  ⟨c6_column_inspection_nonfatal.1 emptyDb "users" "password_hash",
   c6_column_inspection_nonfatal.2 legacyUsersDb 3 rfl⟩

/-- C5 counterexample: an input on which the process neither returns 0 nor
fails to open the connection, yet does not complete: on a file whose
`app_info` lacks the `key` column and which has no `users` table, the fresh
path's unguarded seeding raises, the exception escapes `main`, and the
interpreter dies with a traceback (so the claimed "exit 0 on completion,
exit 1 iff the connection cannot be opened, nothing else" is violated). -/
theorem c5_exit_code_counterexample :
    (main (some badAppInfoDb) false noFaults 0).1 = .crashed ∧
    (main (some badAppInfoDb) false noFaults 0).1 ≠ .exited 0 ∧
    (main (some badAppInfoDb) false noFaults 0).1 ≠ .exited 1 := by
  refine ⟨rfl, by decide, by decide⟩

/-- C5 amended: `main` returns 1 exactly when the connection cannot be
opened, returns 0 on every run that completes, and otherwise an uncaught
exception escapes `main` (a third outcome, which the interpreter turns into
a traceback); no exit code other than 0 and 1 is ever returned. -/
theorem c5_exit_codes (f : Option DbState) (cf : Bool) (fl : Faults) (now : Nat) :
    ((main f cf fl now).1 = .exited 1 ↔ cf = true) ∧
    ((main f cf fl now).1 = .exited 0 ∨ (main f cf fl now).1 = .exited 1 ∨
      (main f cf fl now).1 = .crashed) := by
  cases cf with
  | true =>
    unfold main
    simp
  | false =>
    unfold main
    cases f with
    | none =>
      cases h : createBaseSchema emptyDb now <;> simp [h]
    | some db =>
      cases h : migrateExistingDb db now fl <;> simp [h]

/-- Witness for the amended C5 at concrete inputs. -/
theorem c5_exit_codes_witness :
    (((main none false noFaults 0).1 = .exited 1 ↔ false = true) ∧
     ((main none false noFaults 0).1 = .exited 0 ∨ (main none false noFaults 0).1 = .exited 1 ∨
       (main none false noFaults 0).1 = .crashed)) ∧
    ((main none true noFaults 0).1 = .exited 1 ↔ true = true) :=
  ⟨c5_exit_codes none false noFaults 0, (c5_exit_codes none true noFaults 0).1⟩

end InitDb

namespace InitDb

/-! ## Seeding on a target-shape `app_info` -/

theorem mkSeedRow_appInfo (k v : String) (now nid : Nat) :
    mkSeedRow appInfoCols k v now nid =
      [("id", Value.int nid), ("key", Value.text k), ("value", Value.text v),
       ("created_at", Value.ts now)] := rfl

theorem seedRow_val_key (k v : String) (now nid : Nat) :
    (mkSeedRow appInfoCols k v now nid).val "key" = Value.text k := rfl

theorem seedRow_val_value (k v : String) (now nid : Nat) :
    (mkSeedRow appInfoCols k v now nid).val "value" = Value.text v := rfl

theorem seedRow_val_id (k v : String) (now nid : Nat) :
    (mkSeedRow appInfoCols k v now nid).val "id" = Value.int nid := rfl

theorem seedRow_val_created (k v : String) (now nid : Nat) :
    (mkSeedRow appInfoCols k v now nid).val "created_at" = Value.ts now := rfl

theorem seedAppInfo_target {db : DbState} {rows : List Row} {nid : Nat} (k v : String)
    (now : Nat) (h : db.lookupTable "app_info" = some ⟨appInfoCols, rows, nid⟩) :
    seedAppInfo db k v now = .ok (db.setTable "app_info"
      ⟨appInfoCols,
       rows.filter (fun r => !conflicts appInfoCols (mkSeedRow appInfoCols k v now nid) r)
         ++ [mkSeedRow appInfoCols k v now nid],
       nid + 1⟩) := by
  simp only [seedAppInfo, h]
  rw [if_pos (show ((⟨appInfoCols, rows, nid⟩ : Table).hasCol "key" &&
    (⟨appInfoCols, rows, nid⟩ : Table).hasCol "value") = true from rfl)]
  rw [if_neg ?notnull]
  case notnull =>
    intro hh
    exact Bool.false_ne_true hh

theorem conflicts_of_key {nr r : Row} {k : String} (hnr : nr.val "key" = Value.text k)
    (hr : (r.val "key" == Value.text k) = true) :
    conflicts appInfoCols nr r = true := by
  unfold conflicts
  rw [List.any_eq_true]
  refine ⟨⟨"key", "TEXT", true, true, false, false⟩, by simp [appInfoCols], ?_⟩
  show ((true || false) && nr.val "key" != Value.null && (r.val "key" == nr.val "key")) = true
  rw [hnr]
  simp only [Bool.true_or, bne, Bool.true_and]
  rw [show (Value.text k == Value.null) = false from rfl]
  simp only [Bool.not_false, Bool.true_and]
  exact hr

theorem filter_none {α : Type} {p : α → Bool} {l : List α} (h : ∀ r ∈ l, p r = false) :
    l.filter p = [] := by
  induction l with
  | nil => rfl
  | cons a rest ih =>
    have ha := h a (by simp)
    simp only [List.filter_cons, ha]
    exact ih (fun r hr => h r (by simp [hr]))

theorem kept_rows_no_key {l : List Row} {k v : String} {now nid : Nat} :
    ∀ r ∈ l.filter (fun r => !conflicts appInfoCols (mkSeedRow appInfoCols k v now nid) r),
      (r.val "key" == Value.text k) = false := by
  intro r hr
  rcases List.mem_filter.mp hr with ⟨_, hcon⟩
  cases hk : (r.val "key" == Value.text k) with
  | false => rfl
  | true =>
    rw [conflicts_of_key (seedRow_val_key k v now nid) hk] at hcon
    exact absurd hcon (by simp)

theorem filter_key_seeded {l : List Row} {k v : String} {now nid : Nat} :
    ((l.filter (fun r => !conflicts appInfoCols (mkSeedRow appInfoCols k v now nid) r))
        ++ [mkSeedRow appInfoCols k v now nid]).filter
      (fun r => r.val "key" == Value.text k) = [mkSeedRow appInfoCols k v now nid] := by
  rw [List.filter_append]
  rw [filter_none kept_rows_no_key]
  rw [List.nil_append]
  rw [List.filter_cons]
  rw [seedRow_val_key]
  simp

end InitDb

namespace InitDb

/-- C4: seeding `app_info` (in its script-created shape, with `key` UNIQUE)
twice with the same key and different values ends with exactly one row for
that key, holding the most recently seeded value: the filter of the final
rows on that key is a single row whose `value` cell is the second value. -/
theorem c4_seed_upsert {db : DbState} {rows : List Row} {nid : Nat}
    (k v1 v2 : String) (n1 n2 : Nat)
    (h : db.lookupTable "app_info" = some ⟨appInfoCols, rows, nid⟩) :
    ∃ db1 db2 rows2,
      seedAppInfo db k v1 n1 = .ok db1 ∧
      seedAppInfo db1 k v2 n2 = .ok db2 ∧
      db2.lookupTable "app_info" = some ⟨appInfoCols, rows2, nid + 1 + 1⟩ ∧
      rows2.filter (fun r => r.val "key" == Value.text k) =
        [mkSeedRow appInfoCols k v2 n2 (nid + 1)] ∧
      (mkSeedRow appInfoCols k v2 n2 (nid + 1)).val "value" = Value.text v2 := by
  have h1 := seedAppInfo_target k v1 n1 h
  have hl1 := lookupTable_setTable_self
    (t := ⟨appInfoCols,
      rows.filter (fun r => !conflicts appInfoCols (mkSeedRow appInfoCols k v1 n1 nid) r)
        ++ [mkSeedRow appInfoCols k v1 n1 nid], nid + 1⟩) h
  have h2 := seedAppInfo_target k v2 n2 hl1
  exact ⟨_, _, _, h1, h2, lookupTable_setTable_self hl1, filter_key_seeded,
    seedRow_val_value k v2 n2 (nid + 1)⟩

/-- Witness for C4 at a concrete `app_info` holding an old "version" row. -/
theorem c4_seed_upsert_witness :
    ∃ db1 db2 rows2,
      seedAppInfo seededAppInfoDb "version" "0.1.0" 10 = .ok db1 ∧
      seedAppInfo db1 "version" "0.2.0" 11 = .ok db2 ∧
      db2.lookupTable "app_info" = some ⟨appInfoCols, rows2, 2 + 1 + 1⟩ ∧
      rows2.filter (fun r => r.val "key" == Value.text "version") =
        [mkSeedRow appInfoCols "version" "0.2.0" 11 (2 + 1)] ∧
      (mkSeedRow appInfoCols "version" "0.2.0" 11 (2 + 1)).val "value" =
        Value.text "0.2.0" :=
  c4_seed_upsert "version" "0.1.0" "0.2.0" 10 11 rfl

/-- C9: re-seeding an existing key replaces the whole row: the old row is
gone from the table, and the single remaining row for that key carries a
fresh surrogate id (the AUTOINCREMENT counter, different from the old id)
and a created_at reset to the insert-time default of the second run. -/
theorem c9_seed_replaces_entire_row {db : DbState} {rows : List Row} {nid : Nat} {r : Row}
    {k : String} {j : Int} (v : String) (now : Nat)
    (h : db.lookupTable "app_info" = some ⟨appInfoCols, rows, nid⟩)
    (_hr : r ∈ rows) (hk : r.val "key" = Value.text k)
    (hid : r.val "id" = Value.int j) (hj : j < (nid : Int)) :
    ∃ db1 rows1,
      seedAppInfo db k v now = .ok db1 ∧
      db1.lookupTable "app_info" = some ⟨appInfoCols, rows1, nid + 1⟩ ∧
      rows1.filter (fun row => row.val "key" == Value.text k) =
        [mkSeedRow appInfoCols k v now nid] ∧
      (mkSeedRow appInfoCols k v now nid).val "id" = Value.int (nid : Int) ∧
      (mkSeedRow appInfoCols k v now nid).val "created_at" = Value.ts now ∧
      Value.int (nid : Int) ≠ Value.int j ∧
      r ∉ rows1 := by
  have h1 := seedAppInfo_target k v now h
  have hne : Value.int (nid : Int) ≠ Value.int j := by
    intro heq
    have hinj : (nid : Int) = j := by injection heq
    rw [hinj] at hj
    exact lt_irrefl j hj
  refine ⟨_, _, h1, lookupTable_setTable_self h, filter_key_seeded,
    seedRow_val_id k v now nid, seedRow_val_created k v now nid, hne, ?_⟩
  intro hmem
  rcases List.mem_append.mp hmem with hA | hB
  · rcases List.mem_filter.mp hA with ⟨_, hcon⟩
    rw [conflicts_of_key (seedRow_val_key k v now nid) (by rw [hk]; simp)] at hcon
    exact absurd hcon (by simp)
  · have hrn : r = mkSeedRow appInfoCols k v now nid := by simpa using hB
    rw [hrn, seedRow_val_id] at hid
    exact hne hid

/-- Witness for C9 at a concrete `app_info` holding an old "version" row
with id 1, counter at 2. -/
theorem c9_seed_replaces_entire_row_witness :
    ∃ db1 rows1,
      seedAppInfo seededAppInfoDb "version" "0.2.0" 11 = .ok db1 ∧
      db1.lookupTable "app_info" = some ⟨appInfoCols, rows1, 2 + 1⟩ ∧
      rows1.filter (fun row => row.val "key" == Value.text "version") =
        [mkSeedRow appInfoCols "version" "0.2.0" 11 2] ∧
      (mkSeedRow appInfoCols "version" "0.2.0" 11 2).val "id" = Value.int ((2 : Nat) : Int) ∧
      (mkSeedRow appInfoCols "version" "0.2.0" 11 2).val "created_at" = Value.ts 11 ∧
      Value.int ((2 : Nat) : Int) ≠ Value.int 1 ∧
      [("id", Value.int 1), ("key", Value.text "version"),
       ("value", Value.text "0.0.9"), ("created_at", Value.ts 3)] ∉ rows1 :=
  c9_seed_replaces_entire_row "0.2.0" 11 rfl (by simp) rfl rfl (by decide)

end InitDb

namespace InitDb

/-! ## Precise description of the incremental path on a legacy `users` table -/

theorem hasCol_names (t : Table) (c : String) :
    t.hasCol c = (t.columns.map Column.name).any (fun n => n == c) := by
  unfold Table.hasCol
  induction t.columns with
  | nil => rfl
  | cons a rest ih => simp [List.any_cons, ih]

theorem idxStep_exists_of_col {db : DbState} {idx tbl col : String}
    (h1 : db.hasTable tbl = true) (h2 : db.colInTable tbl col = true) :
    (idxStep db idx tbl col (db.hasIndex idx)).hasIndex idx = true := by
  cases hx : db.hasIndex idx with
  | true =>
    unfold idxStep
    rw [if_pos rfl]
    exact hx
  | false =>
    unfold idxStep
    rw [if_neg (by simp)]
    exact hasIndex_tryCreateIndex_self h1 h2

theorem migrate_incremental_precise {db : DbState} {t : Table} (now : Nat)
    (h : db.lookupTable "users" = some t)
    (hph : t.hasCol "password_hash" = false)
    (hll : t.hasCol "last_login" = false)
    (husn : t.hasCol "username" = true)
    (hem : t.hasCol "email" = true) :
    ∃ d, migrateExistingDb db now noFaults = .ok d ∧
      d.lookupTable "users" =
        some ⟨t.columns ++ [phColAdded] ++ [llColAdded],
          t.rows.map backfillRow, t.nextId⟩ ∧
      d.hasIndex "idx_users_username" = true ∧
      d.hasIndex "idx_users_email" = true := by
  have husers : db.hasTable "users" = true := by
    unfold DbState.hasTable
    rw [h]
    rfl
  have hcond : columnExists db "users" "password_hash" false = false := by
    unfold columnExists
    rw [if_neg (by simp), colInTable_eq_hasCol h]
    exact hph
  have hA : phStep db false =
      (db.setTable "users" ⟨t.columns ++ [phColAdded], t.rows, t.nextId⟩).setTable "users"
        ⟨t.columns ++ [phColAdded], t.rows.map backfillRow, t.nextId⟩ := by
    unfold phStep
    rw [if_neg (by rw [hcond]; exact Bool.false_ne_true)]
    exact tryAddPH_precise h hph
  have hlA : ((db.setTable "users" ⟨t.columns ++ [phColAdded], t.rows, t.nextId⟩).setTable
      "users" ⟨t.columns ++ [phColAdded], t.rows.map backfillRow, t.nextId⟩).lookupTable
      "users" = some ⟨t.columns ++ [phColAdded], t.rows.map backfillRow, t.nextId⟩ :=
    lookupTable_setTable_self (lookupTable_setTable_self h)
  have hT2ll : (Table.mk (t.columns ++ [phColAdded]) (t.rows.map backfillRow)
      t.nextId).hasCol "last_login" = false := by
    rw [hasCol_append]
    rw [show (Table.mk t.columns (t.rows.map backfillRow) t.nextId).hasCol "last_login" =
      t.hasCol "last_login" from rfl, hll]
    rfl
  have hcondll : columnExists ((db.setTable "users"
      ⟨t.columns ++ [phColAdded], t.rows, t.nextId⟩).setTable "users"
      ⟨t.columns ++ [phColAdded], t.rows.map backfillRow, t.nextId⟩)
      "users" "last_login" false = false := by
    unfold columnExists
    rw [if_neg (by simp), colInTable_eq_hasCol hlA]
    exact hT2ll
  have hB : llStep ((db.setTable "users" ⟨t.columns ++ [phColAdded], t.rows, t.nextId⟩).setTable
      "users" ⟨t.columns ++ [phColAdded], t.rows.map backfillRow, t.nextId⟩) false =
      ((db.setTable "users" ⟨t.columns ++ [phColAdded], t.rows, t.nextId⟩).setTable "users"
        ⟨t.columns ++ [phColAdded], t.rows.map backfillRow, t.nextId⟩).setTable "users"
        ⟨t.columns ++ [phColAdded] ++ [llColAdded], t.rows.map backfillRow, t.nextId⟩ := by
    unfold llStep
    rw [if_neg (by rw [hcondll]; exact Bool.false_ne_true)]
    exact tryAddLL_precise hlA hT2ll
  have hlB : (((db.setTable "users" ⟨t.columns ++ [phColAdded], t.rows, t.nextId⟩).setTable
      "users" ⟨t.columns ++ [phColAdded], t.rows.map backfillRow, t.nextId⟩).setTable "users"
      ⟨t.columns ++ [phColAdded] ++ [llColAdded], t.rows.map backfillRow, t.nextId⟩).lookupTable
      "users" = some ⟨t.columns ++ [phColAdded] ++ [llColAdded],
        t.rows.map backfillRow, t.nextId⟩ :=
    lookupTable_setTable_self hlA
  have hmidu : (Table.mk (t.columns ++ [phColAdded]) (t.rows.map backfillRow)
      t.nextId).hasCol "username" = true := by
    rw [hasCol_append]
    have hbase : (Table.mk t.columns (t.rows.map backfillRow) t.nextId).hasCol
        "username" = true := husn
    rw [hbase]
    rfl
  have hT3u : (Table.mk (t.columns ++ [phColAdded] ++ [llColAdded])
      (t.rows.map backfillRow) t.nextId).hasCol "username" = true := by
    rw [hasCol_append, hmidu]
    rfl
  have hmide : (Table.mk (t.columns ++ [phColAdded]) (t.rows.map backfillRow)
      t.nextId).hasCol "email" = true := by
    rw [hasCol_append]
    have hbase : (Table.mk t.columns (t.rows.map backfillRow) t.nextId).hasCol
        "email" = true := hem
    rw [hbase]
    rfl
  have hT3e : (Table.mk (t.columns ++ [phColAdded] ++ [llColAdded])
      (t.rows.map backfillRow) t.nextId).hasCol "email" = true := by
    rw [hasCol_append, hmide]
    rfl
  refine ⟨?w, ?_, ?_, ?_, ?_⟩
  case w => exact seedBlockGuarded (appInfoStep
    (idxStep
      (idxStep (((db.setTable "users" ⟨t.columns ++ [phColAdded], t.rows,
          t.nextId⟩).setTable "users" ⟨t.columns ++ [phColAdded],
          t.rows.map backfillRow, t.nextId⟩).setTable "users"
          ⟨t.columns ++ [phColAdded] ++ [llColAdded], t.rows.map backfillRow, t.nextId⟩)
        "idx_users_username" "users" "username"
        ((((db.setTable "users" ⟨t.columns ++ [phColAdded], t.rows,
          t.nextId⟩).setTable "users" ⟨t.columns ++ [phColAdded],
          t.rows.map backfillRow, t.nextId⟩).setTable "users"
          ⟨t.columns ++ [phColAdded] ++ [llColAdded], t.rows.map backfillRow,
          t.nextId⟩).hasIndex "idx_users_username"))
      "idx_users_email" "users" "email"
      ((idxStep (((db.setTable "users" ⟨t.columns ++ [phColAdded], t.rows,
          t.nextId⟩).setTable "users" ⟨t.columns ++ [phColAdded],
          t.rows.map backfillRow, t.nextId⟩).setTable "users"
          ⟨t.columns ++ [phColAdded] ++ [llColAdded], t.rows.map backfillRow, t.nextId⟩)
        "idx_users_username" "users" "username"
        ((((db.setTable "users" ⟨t.columns ++ [phColAdded], t.rows,
          t.nextId⟩).setTable "users" ⟨t.columns ++ [phColAdded],
          t.rows.map backfillRow, t.nextId⟩).setTable "users"
          ⟨t.columns ++ [phColAdded] ++ [llColAdded], t.rows.map backfillRow,
          t.nextId⟩).hasIndex "idx_users_username")).hasIndex "idx_users_email"))
    ((idxStep
      (idxStep (((db.setTable "users" ⟨t.columns ++ [phColAdded], t.rows,
          t.nextId⟩).setTable "users" ⟨t.columns ++ [phColAdded],
          t.rows.map backfillRow, t.nextId⟩).setTable "users"
          ⟨t.columns ++ [phColAdded] ++ [llColAdded], t.rows.map backfillRow, t.nextId⟩)
        "idx_users_username" "users" "username"
        ((((db.setTable "users" ⟨t.columns ++ [phColAdded], t.rows,
          t.nextId⟩).setTable "users" ⟨t.columns ++ [phColAdded],
          t.rows.map backfillRow, t.nextId⟩).setTable "users"
          ⟨t.columns ++ [phColAdded] ++ [llColAdded], t.rows.map backfillRow,
          t.nextId⟩).hasIndex "idx_users_username"))
      "idx_users_email" "users" "email"
      ((idxStep (((db.setTable "users" ⟨t.columns ++ [phColAdded], t.rows,
          t.nextId⟩).setTable "users" ⟨t.columns ++ [phColAdded],
          t.rows.map backfillRow, t.nextId⟩).setTable "users"
          ⟨t.columns ++ [phColAdded] ++ [llColAdded], t.rows.map backfillRow, t.nextId⟩)
        "idx_users_username" "users" "username"
        ((((db.setTable "users" ⟨t.columns ++ [phColAdded], t.rows,
          t.nextId⟩).setTable "users" ⟨t.columns ++ [phColAdded],
          t.rows.map backfillRow, t.nextId⟩).setTable "users"
          ⟨t.columns ++ [phColAdded] ++ [llColAdded], t.rows.map backfillRow,
          t.nextId⟩).hasIndex "idx_users_username")).hasIndex
        "idx_users_email")).hasTable "app_info")) now
  · simp [migrateExistingDb, tableExists, indexExists, noFaults, husers, hA, hB]
  · generalize hBv : ((db.setTable "users" ⟨t.columns ++ [phColAdded], t.rows,
        t.nextId⟩).setTable "users" ⟨t.columns ++ [phColAdded],
        t.rows.map backfillRow, t.nextId⟩).setTable "users"
        ⟨t.columns ++ [phColAdded] ++ [llColAdded], t.rows.map backfillRow, t.nextId⟩ = B
    rw [hBv] at hlB
    have htabsC := idxStep_tables B "idx_users_username" "users" "username"
      (B.hasIndex "idx_users_username")
    generalize hCv : idxStep B "idx_users_username" "users" "username"
      (B.hasIndex "idx_users_username") = C
    rw [hCv] at htabsC
    have hlC : C.lookupTable "users" = some ⟨t.columns ++ [phColAdded] ++ [llColAdded],
        t.rows.map backfillRow, t.nextId⟩ := by
      rw [lookupTable_eq_of_tables_eq htabsC]
      exact hlB
    have htabsD := idxStep_tables C "idx_users_email" "users" "email"
      (C.hasIndex "idx_users_email")
    generalize hDv : idxStep C "idx_users_email" "users" "email"
      (C.hasIndex "idx_users_email") = D
    rw [hDv] at htabsD
    have hlD : D.lookupTable "users" = some ⟨t.columns ++ [phColAdded] ++ [llColAdded],
        t.rows.map backfillRow, t.nextId⟩ := by
      rw [lookupTable_eq_of_tables_eq htabsD]
      exact hlC
    obtain ⟨_, hE2, _⟩ := appInfoStep_after D
    generalize hEv : appInfoStep D (D.hasTable "app_info") = E
    rw [hEv] at hE2
    rw [(seedBlock_spec E now).2 "users" (by decide), hE2 "users" (by decide)]
    exact hlD
  · generalize hBv : ((db.setTable "users" ⟨t.columns ++ [phColAdded], t.rows,
        t.nextId⟩).setTable "users" ⟨t.columns ++ [phColAdded],
        t.rows.map backfillRow, t.nextId⟩).setTable "users"
        ⟨t.columns ++ [phColAdded] ++ [llColAdded], t.rows.map backfillRow, t.nextId⟩ = B
    rw [hBv] at hlB
    have husersB : B.hasTable "users" = true := by
      unfold DbState.hasTable
      rw [hlB]
      rfl
    have hcolUB : B.colInTable "users" "username" = true := by
      rw [colInTable_eq_hasCol hlB]
      exact hT3u
    have hidxC : (idxStep B "idx_users_username" "users" "username"
        (B.hasIndex "idx_users_username")).hasIndex "idx_users_username" = true :=
      idxStep_exists_of_col husersB hcolUB
    generalize hCv : idxStep B "idx_users_username" "users" "username"
      (B.hasIndex "idx_users_username") = C
    rw [hCv] at hidxC
    have hidxD : (idxStep C "idx_users_email" "users" "email"
        (C.hasIndex "idx_users_email")).hasIndex "idx_users_username" = true :=
      idxStep_hasIndex_mono hidxC
    generalize hDv : idxStep C "idx_users_email" "users" "email"
      (C.hasIndex "idx_users_email") = D
    rw [hDv] at hidxD
    obtain ⟨_, _, hE3⟩ := appInfoStep_after D
    generalize hEv : appInfoStep D (D.hasTable "app_info") = E
    rw [hEv] at hE3
    rw [hasIndex_eq_of_schemaOf (seedBlock_spec E now).1, hasIndex_eq_of_indexes_eq hE3]
    exact hidxD
  · generalize hBv : ((db.setTable "users" ⟨t.columns ++ [phColAdded], t.rows,
        t.nextId⟩).setTable "users" ⟨t.columns ++ [phColAdded],
        t.rows.map backfillRow, t.nextId⟩).setTable "users"
        ⟨t.columns ++ [phColAdded] ++ [llColAdded], t.rows.map backfillRow, t.nextId⟩ = B
    rw [hBv] at hlB
    have husersB : B.hasTable "users" = true := by
      unfold DbState.hasTable
      rw [hlB]
      rfl
    have htabsC := idxStep_tables B "idx_users_username" "users" "username"
      (B.hasIndex "idx_users_username")
    generalize hCv : idxStep B "idx_users_username" "users" "username"
      (B.hasIndex "idx_users_username") = C
    rw [hCv] at htabsC
    have hlC : C.lookupTable "users" = some ⟨t.columns ++ [phColAdded] ++ [llColAdded],
        t.rows.map backfillRow, t.nextId⟩ := by
      rw [lookupTable_eq_of_tables_eq htabsC]
      exact hlB
    have husersC : C.hasTable "users" = true := by
      rw [hasTable_eq_of_tables_eq htabsC]
      exact husersB
    have hcolEC : C.colInTable "users" "email" = true := by
      rw [colInTable_eq_hasCol hlC]
      exact hT3e
    have hidxD : (idxStep C "idx_users_email" "users" "email"
        (C.hasIndex "idx_users_email")).hasIndex "idx_users_email" = true :=
      idxStep_exists_of_col husersC hcolEC
    generalize hDv : idxStep C "idx_users_email" "users" "email"
      (C.hasIndex "idx_users_email") = D
    rw [hDv] at hidxD
    obtain ⟨_, _, hE3⟩ := appInfoStep_after D
    generalize hEv : appInfoStep D (D.hasTable "app_info") = E
    rw [hEv] at hE3
    rw [hasIndex_eq_of_schemaOf (seedBlock_spec E now).1, hasIndex_eq_of_indexes_eq hE3]
    exact hidxD

end InitDb

namespace InitDb

/-! ## Row-level facts about the backfill -/

theorem val_cons (c n : String) (w : Value) (rest : Row) :
    Row.val ((n, w) :: rest) c = if c = n then w else Row.val rest c := by
  unfold Row.val
  rw [lookup_cons]
  by_cases h : c = n <;> simp [h]

theorem val_setVal_self (r : Row) (c : String) (v : Value) : (setVal r c v).val c = v := by
  induction r with
  | nil => simp [setVal, val_cons]
  | cons p rest ih =>
    obtain ⟨n, w⟩ := p
    by_cases h : n = c
    · subst h
      simp [setVal, val_cons]
    · have hb : (n == c) = false := beq_eq_false_iff_ne.mpr h
      rw [show setVal ((n, w) :: rest) c v = (n, w) :: setVal rest c v from by
        simp [setVal, hb]]
      rw [val_cons, if_neg (fun hh => h hh.symm)]
      exact ih

theorem val_setVal_ne {r : Row} {c c' : String} {v : Value} (h : c' ≠ c) :
    (setVal r c v).val c' = r.val c' := by
  induction r with
  | nil => simp [setVal, val_cons, h]
  | cons p rest ih =>
    obtain ⟨n, w⟩ := p
    by_cases hn : n = c
    · subst hn
      simp [setVal, val_cons, h]
    · rw [show setVal ((n, w) :: rest) c v = (n, w) :: setVal rest c v from by
        simp [setVal, beq_eq_false_iff_ne.mpr hn]]
      rw [val_cons, val_cons]
      by_cases hcn : c' = n
      · simp [hcn]
      · rw [if_neg hcn, if_neg hcn]
        exact ih

theorem val_null_of_keys {r : Row} {c : String} (h : ∀ p ∈ r, p.1 ≠ c) :
    r.val c = Value.null := by
  induction r with
  | nil => rfl
  | cons p rest ih =>
    obtain ⟨n, w⟩ := p
    rw [val_cons, if_neg (fun hh => h (n, w) (by simp) hh.symm)]
    exact ih (fun p hp => h p (by simp [hp]))

theorem backfillRow_ph {r : Row} (h : r.val "password_hash" = Value.null) :
    (backfillRow r).val "password_hash" = Value.text "" := by
  unfold backfillRow
  rw [val_setVal_self, h]
  rfl

theorem backfillRow_ne {r : Row} {c : String} (h : c ≠ "password_hash") :
    (backfillRow r).val c = r.val c :=
  val_setVal_ne h

/-- C3: a run against an existing database whose `users` table has exactly
the columns id, username, email, created_at (rows binding only those
columns) adds both missing auth columns and both indexes; afterwards the
rows are exactly the backfilled pre-existing rows, each with password_hash
equal to the empty string and last_login NULL. -/
theorem c3_legacy_users_migration (db : DbState) (t : Table) (now : Nat)
    (h : db.lookupTable "users" = some t)
    (hname : t.columns.map Column.name = legacyNames)
    (hw : ∀ r ∈ t.rows, ∀ p ∈ r, p.1 ∈ legacyNames) :
    ∃ d t', runFile (some db) now = some d ∧
      d.lookupTable "users" = some t' ∧
      t'.columns.map Column.name =
        ["id", "username", "email", "created_at", "password_hash", "last_login"] ∧
      d.hasIndex "idx_users_username" = true ∧
      d.hasIndex "idx_users_email" = true ∧
      t'.rows = t.rows.map backfillRow ∧
      (∀ r' ∈ t'.rows, r'.val "password_hash" = Value.text "" ∧
        r'.val "last_login" = Value.null) := by
  have hph : t.hasCol "password_hash" = false := by rw [hasCol_names, hname]; rfl
  have hll : t.hasCol "last_login" = false := by rw [hasCol_names, hname]; rfl
  have husn : t.hasCol "username" = true := by rw [hasCol_names, hname]; rfl
  have hem : t.hasCol "email" = true := by rw [hasCol_names, hname]; rfl
  obtain ⟨d, hok, hld, hi1, hi2⟩ := migrate_incremental_precise now h hph hll husn hem
  rw [runFile_some, hok]
  refine ⟨d, _, rfl, hld, ?_, hi1, hi2, rfl, ?_⟩
  · show ((t.columns ++ [phColAdded] ++ [llColAdded]).map Column.name) = _
    rw [List.map_append, List.map_append, hname]
    rfl
  · intro r' hr'
    rcases List.mem_map.mp hr' with ⟨r, hr, hrn⟩
    subst hrn
    constructor
    · apply backfillRow_ph
      apply val_null_of_keys
      intro p hp heq
      have hmem := hw r hr p hp
      rw [heq] at hmem
      exact absurd hmem (by decide)
    · rw [backfillRow_ne (by decide)]
      apply val_null_of_keys
      intro p hp heq
      have hmem := hw r hr p hp
      rw [heq] at hmem
      exact absurd hmem (by decide)

/-- Witness for C3 at a concrete legacy file with one pre-existing user row. -/
theorem c3_legacy_users_migration_witness :
    ∃ d t', runFile (some legacyUsersDb) 9 = some d ∧
      d.lookupTable "users" = some t' ∧
      t'.columns.map Column.name =
        ["id", "username", "email", "created_at", "password_hash", "last_login"] ∧
      d.hasIndex "idx_users_username" = true ∧
      d.hasIndex "idx_users_email" = true ∧
      t'.rows = [[("id", Value.int 1), ("username", Value.text "alice"),
        ("email", Value.text "alice@example.com"),
        ("created_at", Value.ts 5)]].map backfillRow ∧
      (∀ r' ∈ t'.rows, r'.val "password_hash" = Value.text "" ∧
        r'.val "last_login" = Value.null) :=
  c3_legacy_users_migration legacyUsersDb
    ⟨[⟨"id", "INTEGER", false, false, true, false⟩,
      ⟨"username", "TEXT", true, true, false, false⟩,
      ⟨"email", "TEXT", true, true, false, false⟩,
      ⟨"created_at", "TIMESTAMP", false, false, false, true⟩],
     [[("id", Value.int 1), ("username", Value.text "alice"),
       ("email", Value.text "alice@example.com"), ("created_at", Value.ts 5)]], 2⟩
    9 rfl rfl (by decide)

end InitDb

namespace InitDb

/-! ## Monotonicity: the run never drops a table or a column -/

theorem schemaLe_refl (db : DbState) : schemaLe db db :=
  fun _ t h => ⟨t, h, fun _ hc => hc⟩

theorem schemaLe_trans {a b c : DbState} (h1 : schemaLe a b) (h2 : schemaLe b c) :
    schemaLe a c := by
  intro n t h
  obtain ⟨t1, hb, hs1⟩ := h1 n t h
  obtain ⟨t2, hc, hs2⟩ := h2 n t1 hb
  exact ⟨t2, hc, fun col hcol => hs2 col (hs1 col hcol)⟩

theorem schemaLe_of_lookup_eq {a b : DbState}
    (h : ∀ n, b.lookupTable n = a.lookupTable n) : schemaLe a b := by
  intro n t hn
  exact ⟨t, (h n).trans hn, fun c hc => hc⟩

theorem schemaLe_of_schemaOf_eq {a b : DbState} (h : schemaOf b = schemaOf a) :
    schemaLe a b := by
  intro n t hn
  have hm := mapLookup_eq_of_schemaOf h n
  rw [hn] at hm
  cases hb : b.lookupTable n with
  | none =>
    rw [hb] at hm
    exact absurd hm (by simp)
  | some t' =>
    rw [hb] at hm
    have hcols : t'.columns = t.columns := by simpa using hm
    exact ⟨t', rfl, fun c hc => by rw [hcols]; exact hc⟩

theorem schemaLe_setTable {a : DbState} {n : String} {u t' : Table}
    (h : a.lookupTable n = some u) (hsub : ∀ c ∈ u.columns, c ∈ t'.columns) :
    schemaLe a (a.setTable n t') := by
  intro m tm hm
  by_cases hmn : m = n
  · subst hmn
    have htu : tm = u := by
      rw [h] at hm
      simpa using hm.symm
    subst htu
    exact ⟨t', lookupTable_setTable_self h, hsub⟩
  · exact ⟨tm, (lookupTable_setTable_ne hmn).trans hm, fun c hc => hc⟩

theorem schemaLe_createTIN (db : DbState) (n : String) (cols : List Column) :
    schemaLe db (createTableIfNotExists db n cols) := by
  unfold createTableIfNotExists
  split
  · exact schemaLe_refl db
  · intro m tm hm
    exact ⟨tm, lookup_append_some hm, fun c hc => hc⟩

theorem schemaLe_tryCreateIndex (db : DbState) (idx tbl col : String) :
    schemaLe db (tryCreateIndex db idx tbl col) :=
  schemaLe_of_lookup_eq (fun n => lookupTable_tryCreateIndex db idx tbl col n)

theorem schemaLe_tryAddPH (db : DbState) : schemaLe db (tryAddPasswordHash db) := by
  cases hl : db.lookupTable "users" with
  | none =>
    have : tryAddPasswordHash db = db := by
      unfold tryAddPasswordHash alterAddColumn
      simp only [hl]
    rw [this]
    exact schemaLe_refl db
  | some t =>
    cases hc : t.hasCol "password_hash" with
    | true =>
      have hcn : t.hasCol phColAdded.name = true := hc
      have : tryAddPasswordHash db = db := by
        unfold tryAddPasswordHash alterAddColumn
        simp only [hl, hcn, if_true]
      rw [this]
      exact schemaLe_refl db
    | false =>
      rw [tryAddPH_precise hl hc]
      refine schemaLe_trans (schemaLe_setTable hl ?_) (schemaLe_setTable
        (lookupTable_setTable_self hl) ?_)
      · intro c hcm
        exact List.mem_append_left _ hcm
      · intro c hcm
        exact hcm

theorem schemaLe_tryAddLL (db : DbState) : schemaLe db (tryAddLastLogin db) := by
  cases hl : db.lookupTable "users" with
  | none =>
    have : tryAddLastLogin db = db := by
      unfold tryAddLastLogin alterAddColumn
      simp only [hl]
    rw [this]
    exact schemaLe_refl db
  | some t =>
    cases hc : t.hasCol "last_login" with
    | true =>
      have hcn : t.hasCol llColAdded.name = true := hc
      have : tryAddLastLogin db = db := by
        unfold tryAddLastLogin alterAddColumn
        simp only [hl, hcn, if_true]
      rw [this]
      exact schemaLe_refl db
    | false =>
      rw [tryAddLL_precise hl hc]
      exact schemaLe_setTable hl (fun c hcm => List.mem_append_left _ hcm)

theorem schemaLe_phStep (db : DbState) (cf : Bool) : schemaLe db (phStep db cf) := by
  unfold phStep
  split
  · exact schemaLe_refl db
  · exact schemaLe_tryAddPH db

theorem schemaLe_llStep (db : DbState) (cf : Bool) : schemaLe db (llStep db cf) := by
  unfold llStep
  split
  · exact schemaLe_refl db
  · exact schemaLe_tryAddLL db

theorem schemaLe_idxStep (db : DbState) (idx tbl col : String) (ex : Bool) :
    schemaLe db (idxStep db idx tbl col ex) := by
  unfold idxStep
  split
  · exact schemaLe_refl db
  · exact schemaLe_tryCreateIndex db idx tbl col

theorem schemaLe_appInfoStep (db : DbState) (ex : Bool) :
    schemaLe db (appInfoStep db ex) := by
  unfold appInfoStep
  split
  · exact schemaLe_refl db
  · exact schemaLe_createTIN db "app_info" appInfoCols

theorem schemaLe_seedAll (db : DbState) (now : Nat) :
    schemaLe db (resultDb (seedAllUnguarded db now)) :=
  schemaLe_of_schemaOf_eq (seedAll_spec db now).1

theorem schemaLe_seedBlock (db : DbState) (now : Nat) :
    schemaLe db (seedBlockGuarded db now) :=
  schemaLe_of_schemaOf_eq (seedBlock_spec db now).1

theorem schemaLe_createBase (db : DbState) (now : Nat) :
    schemaLe db (resultDb (createBaseSchema db now)) := by
  have h12 : schemaLe db (createTableIfNotExists
      (createTableIfNotExists db "app_info" appInfoCols) "users" usersCols) :=
    schemaLe_trans (schemaLe_createTIN db "app_info" appInfoCols)
      (schemaLe_createTIN _ "users" usersCols)
  unfold createBaseSchema
  cases h3 : createIndexIfNotExists
      (createTableIfNotExists (createTableIfNotExists db "app_info" appInfoCols)
        "users" usersCols) "idx_users_username" "users" "username" with
  | error e =>
    simp only [h3, resultDb]
    exact h12
  | ok db3 =>
    have hl3 : schemaLe db db3 := by
      refine schemaLe_trans h12 (schemaLe_of_lookup_eq (fun n => ?_))
      exact lookupTable_eq_of_tables_eq (createIndex_ok_tables h3) n
    simp only [h3]
    cases h4 : createIndexIfNotExists db3 "idx_users_email" "users" "email" with
    | error e =>
      simp only [h4, resultDb]
      exact hl3
    | ok db4 =>
      have hl4 : schemaLe db db4 := by
        refine schemaLe_trans hl3 (schemaLe_of_lookup_eq (fun n => ?_))
        exact lookupTable_eq_of_tables_eq (createIndex_ok_tables h4) n
      simp only [h4]
      exact schemaLe_trans hl4 (schemaLe_seedAll db4 now)

theorem schemaLe_migrate (db : DbState) (now : Nat) (fl : Faults) :
    schemaLe db (resultDb (migrateExistingDb db now fl)) := by
  unfold migrateExistingDb
  cases htf : fl.tableFault with
  | true =>
    simp only [tableExists, htf, if_true, resultDb]
    exact schemaLe_refl db
  | false =>
    simp only [tableExists, htf, Bool.false_eq_true, if_false]
    cases hu : db.hasTable "users" with
    | false =>
      simp only [hu, Bool.not_false, if_true]
      exact schemaLe_createBase db now
    | true =>
      simp only [hu, Bool.not_true, Bool.false_eq_true, if_false]
      have hAB : schemaLe db (llStep (phStep db fl.columnFault) fl.columnFault) :=
        schemaLe_trans (schemaLe_phStep db fl.columnFault)
          (schemaLe_llStep _ fl.columnFault)
      cases hif : fl.indexFault with
      | true =>
        simp only [indexExists, hif, if_true, resultDb]
        exact hAB
      | false =>
        simp only [indexExists, hif, Bool.false_eq_true, if_false, resultDb]
        refine schemaLe_trans (schemaLe_trans (schemaLe_trans (schemaLe_trans hAB
          (schemaLe_idxStep _ "idx_users_username" "users" "username" _))
          (schemaLe_idxStep _ "idx_users_email" "users" "email" _))
          (schemaLe_appInfoStep _ _)) (schemaLe_seedBlock _ now)

/-- C7: for every starting database state and every run (with any injected
catalog faults and either connection outcome), the reconciliation never
drops a table, never drops a column, and never changes a column's declared
type: every table binding present before the run is still present after,
with every one of its column declarations intact. -/
theorem c7_never_drops (db : DbState) (cf : Bool) (fl : Faults) (now : Nat) :
    ∃ db', (main (some db) cf fl now).2 = some db' ∧ schemaLe db db' := by
  cases cf with
  | true =>
    unfold main
    simp only [if_true]
    exact ⟨db, rfl, schemaLe_refl db⟩
  | false =>
    unfold main
    simp only [Bool.false_eq_true, if_false]
    cases h : migrateExistingDb db now fl with
    | ok d =>
      have := schemaLe_migrate db now fl
      rw [h] at this
      exact ⟨d, rfl, this⟩
    | err d =>
      have := schemaLe_migrate db now fl
      rw [h] at this
      exact ⟨d, rfl, this⟩

end InitDb
